import Mathlib

/-!
libSLM: state capture and restore of the host binding, and the command-line dispatcher.

A shallow embedding of `src/python/libSLM/module.cpp` (the pybind11 binding of
the document model) and of `src/main.cpp` (the dispatcher).

Conventions of the embedding.

* A Python value is a `PyVal`.  Python exceptions are values of `PyErr`, and a
  bound C++ lambda that may throw returns `Except PyErr _`.
* A C++ object that the binding wraps is a Lean structure; the Python instance
  around it adds the `__dict__` that `py::dynamic_attr()` provides.
* `float` values are kept as IEEE-754 binary32 bit patterns and are only moved,
  never computed with.
* The headers `App/Header.h`, `App/Layer.h`, `App/Model.h` and `utils.h` are not
  among the sources.  Field widths are taken from the signatures that
  `module.cpp` itself instantiates (`py::init<uint32_t, uint32_t>`,
  `py::init<uint64_t, uint64_t>`) and from the casts of the restore lambdas.
-/

namespace SLM

/-! ## Scalars -/

/-- A C++ `float`: its IEEE-754 binary32 bit pattern. -/
structure F32 where
  bits : Nat
deriving DecidableEq, Repr, Inhabited

/-- The `float` constant `0.0`. -/
def F32.zero : F32 := ⟨0⟩

/-- Smallest value of a C++ `int` (32 bits, two's complement). -/
def INT_MIN : Int := -2147483648

/-- Largest value of a C++ `int`. -/
def INT_MAX : Int := 2147483647

/-- Largest value of a `uint32_t`. -/
def UINT32_MAX : Int := 4294967295

/-- Largest value of a `uint64_t`. -/
def UINT64_MAX : Int := 18446744073709551615

/-- Conversion of an `int` to `uint32_t` (assignment `p->bid = int`): reduction modulo 2^32. -/
def toUInt32 (v : Int) : Nat := (v % 4294967296).toNat

/-- Conversion of an `int` to `uint64_t` (arguments of `Layer(uint64_t, uint64_t)` and
`Model(uint64_t, uint64_t)`): reduction modulo 2^64. -/
def toUInt64 (v : Int) : Nat := (v % 18446744073709551616).toNat

/-! ## Enumerations exposed by the binding -/

/-- The C++ enumeration `slm::LaserMode`; the binding names `CW` and `PULSE`. -/
inductive LaserMode where
  | CW
  | PULSE
deriving DecidableEq, Repr, Inhabited

/-- The C++ enumeration `slm::LayerGeometry::TYPE`; the binding names four enumerators. -/
inductive GeomType where
  | INVALID
  | PNTS
  | POLYGON
  | HATCH
deriving DecidableEq, Repr, Inhabited

/-- `py::enum_<slm::LaserMode>(m, "LaserMode")`: the exposed names with the C++ value each
denotes, in registration order. -/
def laserModeEnum : List (String × LaserMode) :=
  [("Default", LaserMode.PULSE), ("CW", LaserMode.CW), ("Pulse", LaserMode.PULSE)]

/-- Attribute access `slm.LaserMode.<name>`. -/
def laserModeByName (name : String) : Option LaserMode :=
  laserModeEnum.lookup name

/-- `py::enum_<slm::LayerGeometry::TYPE>(layerGeomPyType, "LayerGeometryType")`. -/
def geomTypeEnum : List (String × GeomType) :=
  [("Invalid", GeomType.INVALID), ("Pnts", GeomType.PNTS),
   ("Polygon", GeomType.POLYGON), ("Hatch", GeomType.HATCH)]

/-! ## Coordinate storage -/

/-- An `Eigen::MatrixXf`: `rows * cols` floats stored column by column.  `data` lists the
floats of the storage that are determined, from the first on. -/
structure Matrix where
  rows : Nat
  cols : Nat
  data : List F32
deriving DecidableEq, Repr, Inhabited

/-- Every one of the `rows * cols` floats of the storage is determined. -/
def Matrix.WF (m : Matrix) : Prop := m.data.length = m.rows * m.cols

instance (m : Matrix) : Decidable m.WF := by unfold Matrix.WF; infer_instance

/-- Coefficient `(i, j)` of a column-major matrix. -/
def Matrix.coeff (m : Matrix) (i j : Nat) : F32 := m.data.getD (i + j * m.rows) F32.zero

/-- A default-constructed `Eigen::MatrixXf` (0 x 0). -/
def Matrix.empty : Matrix := ⟨0, 0, []⟩

/-- A numpy array of dtype float32, as pybind11 sees it: shape, strides counted in elements,
and the memory that starts at its data pointer.  Strides are non-negative. -/
structure NdArray where
  shape : List Nat
  strides : List Nat
  data : List F32
deriving DecidableEq, Repr, Inhabited

/-- `arr.ndim()`. -/
def NdArray.ndim (a : NdArray) : Nat := a.shape.length

/-- `arr.size()`: the product of the extents. -/
def NdArray.size (a : NdArray) : Nat := a.shape.foldl (fun acc n => acc * n) 1

/-- Element `(i, j)` of a two-dimensional array, following its strides. -/
def NdArray.at2 (a : NdArray) (i j : Nat) : F32 :=
  a.data.getD (i * a.strides.getD 0 0 + j * a.strides.getD 1 0) F32.zero

/-- Element `i` of a one-dimensional array. -/
def NdArray.at1 (a : NdArray) (i : Nat) : F32 :=
  a.data.getD (i * a.strides.getD 0 0) F32.zero

/-- A C-contiguous (row-major) `rows x cols` array over the given elements. -/
def NdArray.rowMajor (rows cols : Nat) (elems : List F32) : NdArray :=
  { shape := [rows, cols], strides := [cols, 1], data := elems }

/-! ## The C++ document model -/

/-- The dynamic class of a geometry object. -/
inductive GeomKind where
  | base
  | contour
  | hatch
  | pnts
deriving DecidableEq, Repr, Inhabited

/-- A `slm::LayerGeometry` or one of its three subclasses.  `mid` and `bid` are `uint32_t`
(the constructors bound with `py::init<uint32_t, uint32_t>`). -/
structure LayerGeometry where
  kind : GeomKind
  mid : Nat
  bid : Nat
  coords : Matrix
deriving DecidableEq, Repr, Inhabited

/-- Modelled from the spec: the virtual `getType()` is declared in `App/Layer.h`, which is not
among the sources; the tag is fixed per variant (Points, Contour, Hatch) and the base class
reports the remaining enumerator. -/
def LayerGeometry.getType (g : LayerGeometry) : GeomType :=
  match g.kind with
  | .base => GeomType.INVALID
  | .contour => GeomType.POLYGON
  | .hatch => GeomType.HATCH
  | .pnts => GeomType.PNTS

/-- What `std::make_shared<T>()` followed by no assignment holds, for the class `k`. -/
def LayerGeometry.fresh (k : GeomKind) : LayerGeometry :=
  { kind := k, mid := 0, bid := 0, coords := Matrix.empty }

/-- A `slm::BuildStyle`, with the fields the binding exposes.  The integer members are kept
as mathematical integers: their widths are declared in `App/Model.h`. -/
structure BuildStyle where
  id : Int
  name : String
  description : String
  laserPower : F32
  laserSpeed : F32
  laserFocus : F32
  pointDistance : Int
  pointExposureTime : Int
  laserId : Int
  laserMode : LaserMode
  pointDelay : Int
  jumpDelay : Int
  jumpSpeed : Int
deriving DecidableEq, Repr, Inhabited

/-- A `slm::Model`, with the properties the binding exposes. -/
structure Model where
  mid : Nat
  name : String
  buildStyleName : String
  buildStyleDescription : String
  topLayerId : Nat
  buildStyles : List BuildStyle
deriving DecidableEq, Repr, Inhabited

/-- A `slm::Layer`, with the properties the binding exposes. -/
structure Layer where
  layerId : Nat
  z : Nat
  geometry : List LayerGeometry
  isLoaded : Bool
  layerFilePosition : Nat
deriving DecidableEq, Repr, Inhabited

/-- A `slm::Header`. -/
structure Header where
  fileName : String
  creator : String
  vMajor : Int
  vMinor : Int
  zUnit : Int
deriving DecidableEq, Repr, Inhabited

/-! ## Python values -/

/-- The Python values the binding produces and consumes. -/
inductive PyVal where
  | none
  | int (v : Int)
  | float (x : F32)
  | str (s : String)
  | tuple (items : List PyVal)
  | dict (entries : List (String × PyVal))
  | ndarray (a : NdArray)
  | laserMode (m : LaserMode)
  | geomType (t : GeomType)
  | vectorLayerGeometry (gs : List LayerGeometry)
  | vectorBuildStyle (bs : List BuildStyle)
deriving Repr, Inhabited

/-- The `__dict__` of an instance created with `py::dynamic_attr()`. -/
abbrev PyDict := List (String × PyVal)

/-- Item assignment `d[k] = v` on a dict: an existing key keeps its place. -/
def dictSet (d : PyDict) (k : String) (v : PyVal) : PyDict :=
  if d.any (fun kv => kv.1 == k) then d.map (fun kv => if kv.1 == k then (k, v) else kv)
  else d ++ [(k, v)]

/-- Python exceptions raised by the binding.  `outsideModel` marks a step whose result
depends on behaviour that is not represented: iteration of values other than tuples, the
number protocol of enum values and arrays, numpy coercion of values other than float32
arrays, and copies that do not fill their destination exactly. -/
inductive PyErr where
  | runtimeError (msg : String)
  | castError
  | typeError
  | indexError
  | attributeError
  | outsideModel
deriving DecidableEq, Repr, Inhabited

/-- `t[i]` on a `py::tuple`: `PyTuple_GetItem`, which raises `IndexError` past the end. -/
def getItem (t : List PyVal) (i : Nat) : Except PyErr PyVal :=
  match t.get? i with
  | some v => .ok v
  | none => .error PyErr.indexError

/-- The integer pybind11 loads from a Python object for an integral C++ type.  Python ints
are taken directly and floats are refused.  Bound enum values and arrays answer through the
number protocol (`__index__`, `__int__`), with a result that depends on declarations of the
absent headers resp. on numpy; these are not represented. -/
def loadInteger : PyVal → Except PyErr Int
  | .int v => .ok v
  | .laserMode _ => .error PyErr.outsideModel
  | .geomType _ => .error PyErr.outsideModel
  | .ndarray _ => .error PyErr.outsideModel
  | _ => .error PyErr.castError

/-- `h.cast<int>()`: the loaded integer must fit a C++ `int`. -/
def castInt (v : PyVal) : Except PyErr Int :=
  match loadInteger v with
  | .ok n => if INT_MIN ≤ n ∧ n ≤ INT_MAX then .ok n else .error PyErr.castError
  | .error e => .error e

/-- `h.cast<float>()`.  A Python float is identified with the `float` it came from; the
numeric coercion of ints, enum values and arrays is not represented. -/
def castFloat : PyVal → Except PyErr F32
  | .float x => .ok x
  | .int _ => .error PyErr.outsideModel
  | .laserMode _ => .error PyErr.outsideModel
  | .geomType _ => .error PyErr.outsideModel
  | .ndarray _ => .error PyErr.outsideModel
  | _ => .error PyErr.castError

/-- `h.cast<std::string>()` and `h.cast<std::u16string>()`. -/
def castString : PyVal → Except PyErr String
  | .str s => .ok s
  | _ => .error PyErr.castError

/-- `h.cast<slm::LaserMode>()`. -/
def castLaserMode : PyVal → Except PyErr LaserMode
  | .laserMode m => .ok m
  | _ => .error PyErr.castError

/-- `h.cast<py::dict>()`: the converting constructor of `py::dict`.  A dict is taken as it
is; otherwise Python's `dict(h)` runs, which raises `TypeError` on an object that is neither
a mapping nor iterable (None, numbers, bound enum values). -/
def castDict : PyVal → Except PyErr PyDict
  | .dict d => .ok d
  | .none => .error PyErr.typeError
  | .int _ => .error PyErr.typeError
  | .float _ => .error PyErr.typeError
  | .laserMode _ => .error PyErr.typeError
  | .geomType _ => .error PyErr.typeError
  | _ => .error PyErr.outsideModel

/-- `h.cast<py::tuple>()`: the converting constructor of `py::tuple`. -/
def castTuple : PyVal → Except PyErr (List PyVal)
  | .tuple xs => .ok xs
  | .none => .error PyErr.typeError
  | .int _ => .error PyErr.typeError
  | .float _ => .error PyErr.typeError
  | .laserMode _ => .error PyErr.typeError
  | .geomType _ => .error PyErr.typeError
  | _ => .error PyErr.outsideModel

/-- `h.cast<std::vector<LayerGeometry::Ptr>>()` for the bound `VectorLayerGeometry`. -/
def castGeometryVector : PyVal → Except PyErr (List LayerGeometry)
  | .vectorLayerGeometry gs => .ok gs
  | _ => .error PyErr.castError

/-- `h.cast<std::vector<BuildStyle::Ptr>>()` for the bound `VectorBuildStyle`. -/
def castBuildStyleVector : PyVal → Except PyErr (List BuildStyle)
  | .vectorBuildStyle bs => .ok bs
  | _ => .error PyErr.castError

/-- `py::array_t<float>::ensure(h)`: a float32 array is returned as it is, with its strides. -/
def ensureArray : PyVal → Except PyErr NdArray
  | .ndarray a => .ok a
  | _ => .error PyErr.outsideModel

/-- `arr.shape(dim)`, which raises `IndexError` when `dim` is not an axis. -/
def NdArray.shapeAt (a : NdArray) (dim : Nat) : Except PyErr Nat :=
  match a.shape.get? dim with
  | some n => .ok n
  | none => .error PyErr.indexError

/-- The highest element offset a two-dimensional access reaches stays inside the buffer. -/
def NdArray.inBounds2 (a : NdArray) (r c : Nat) : Bool :=
  r = 0 || c = 0 || decide ((r - 1) * a.strides.getD 0 0 + (c - 1) * a.strides.getD 1 0 < a.data.length)

/-- The highest element offset a one-dimensional access reaches stays inside the buffer. -/
def NdArray.inBounds1 (a : NdArray) (n : Nat) : Bool :=
  n = 0 || decide ((n - 1) * a.strides.getD 0 0 < a.data.length)

/-- `h.cast<Eigen::MatrixXf>()`: pybind11's Eigen caster.  It accepts one or two dimensions
and copies element by element, following the strides of the source, into column-major
storage. -/
def castMatrix : PyVal → Except PyErr Matrix
  | .ndarray a =>
    match a.shape with
    | [n] =>
      if a.inBounds1 n then
        .ok { rows := n, cols := 1, data := (List.range n).map (fun k => a.at1 k) }
      else .error PyErr.outsideModel
    | [r, c] =>
      if a.inBounds2 r c then
        .ok { rows := r, cols := c,
              data := (List.range (r * c)).map (fun k => a.at2 (k % r) (k / r)) }
      else .error PyErr.outsideModel
    | _ => .error PyErr.castError
  | _ => .error PyErr.outsideModel

/-- `std::memcpy(dst, arr.data(), arr.size() * sizeof(float))` into storage that was resized
to `capacity` floats: `arr.size()` floats from the data pointer of the source, in memory
order, whatever the strides of the source.  Floats that lie past the represented source
memory are indeterminate; the result then lists only the floats that are determined.  A copy
that does not fill the destination exactly (more than two dimensions) writes past it or
leaves part of it unset, and is not represented. -/
def memcpyFrom (capacity : Nat) (a : NdArray) : Except PyErr (List F32) :=
  if a.size = capacity then .ok (a.data.take a.size) else .error PyErr.outsideModel

/-! ## Geometry objects as Python instances -/

/-- A Python instance of `LayerGeometry`, `ContourGeometry`, `HatchGeometry` or
`PointsGeometry`: the wrapped C++ object and the instance `__dict__`. -/
structure GeomInst where
  obj : LayerGeometry
  dict : PyDict

/-- The getter lambda of the `coords` property: a view of shape `(rows, cols)` with
column-major strides `(1, rows)` over the matrix storage. -/
def getCoords (self : LayerGeometry) : NdArray :=
  { shape := [self.coords.rows, self.coords.cols],
    strides := [1, self.coords.rows],
    data := self.coords.data }

/-- The setter lambda of the `coords` property.  It returns the outcome together with the
object as the call leaves it.  The lambda reads `ndim`, `shape`, `size` and the memory at the
data pointer, never the strides.  With two dimensions `arr.size()` is `shape(0) * shape(1)`,
so the copy always fills the resized storage. -/
def setCoords (self : LayerGeometry) (arr : NdArray) : Except PyErr Unit × LayerGeometry :=
  if arr.ndim ≠ 2 then
    (.error (PyErr.runtimeError "coords must be a 2D array"), self)
  else
    match memcpyFrom (arr.shape.getD 0 0 * arr.shape.getD 1 0) arr with
    | .ok buf =>
      (.ok (), { self with coords := { rows := arr.shape.getD 0 0, cols := arr.shape.getD 1 0,
                                       data := buf } })
    | .error e => (.error e, self)

/-- The integer a `def_readwrite` setter of a `uint32_t` member accepts; a value that does
not fit makes the call fail with `TypeError`. -/
def loadUInt32Arg (v : PyVal) : Except PyErr Nat :=
  match loadInteger v with
  | .ok n => if 0 ≤ n ∧ n ≤ UINT32_MAX then .ok n.toNat else .error PyErr.typeError
  | .error PyErr.outsideModel => .error PyErr.outsideModel
  | .error _ => .error PyErr.typeError

/-- The argument conversion to `const py::array_t<float>&` of the `coords` setter. -/
def loadArrayArg : PyVal → Except PyErr NdArray
  | .ndarray a => .ok a
  | .none => .error PyErr.typeError
  | .str _ => .error PyErr.typeError
  | .dict _ => .error PyErr.typeError
  | _ => .error PyErr.outsideModel

/-- Attribute assignment `self.<name> = v` on a geometry instance.  `bid` and `mid` are
`def_readwrite`, `coords` has the setter lambda, `type` is `def_property` with a null
setter, and every other name is stored in the instance `__dict__` (`py::dynamic_attr()`).
Names that begin with two underscores are not represented.  The result pairs the outcome
with the instance as the call leaves it. -/
def GeomInst.setattr (self : GeomInst) (name : String) (v : PyVal) :
    Except PyErr Unit × GeomInst :=
  if name = "bid" then
    match loadUInt32Arg v with
    | .ok n => (.ok (), { self with obj := { self.obj with bid := n } })
    | .error e => (.error e, self)
  else if name = "mid" then
    match loadUInt32Arg v with
    | .ok n => (.ok (), { self with obj := { self.obj with mid := n } })
    | .error e => (.error e, self)
  else if name = "coords" then
    match loadArrayArg v with
    | .ok a => ((setCoords self.obj a).1, { self with obj := (setCoords self.obj a).2 })
    | .error e => (.error e, self)
  else if name = "type" then
    (.error PyErr.attributeError, self)
  else if name.startsWith "__" then
    (.error PyErr.outsideModel, self)
  else
    (.ok (), { self with dict := dictSet self.dict name v })

/-- The number of fields the `__setstate__` lambda of each geometry class accepts
(`t.size() != 5` for `LayerGeometry`, `t.size() != 4` for the subclasses). -/
def geomAcceptedSize : GeomKind → Nat
  | .base => 5
  | _ => 4

/-- The `__getstate__` lambda of the geometry class of `self`. -/
def GeomInst.getstate (self : GeomInst) : List PyVal :=
  match self.obj.kind with
  | .base =>
    [PyVal.int self.obj.bid, PyVal.int self.obj.mid, PyVal.ndarray (getCoords self.obj),
     PyVal.geomType self.obj.getType, PyVal.dict self.dict]
  | _ =>
    [PyVal.int self.obj.bid, PyVal.int self.obj.mid, PyVal.ndarray (getCoords self.obj),
     PyVal.dict self.dict]

/-- The `__setstate__` lambda of `LayerGeometry`. -/
def layerGeometrySetstate (t : List PyVal) : Except PyErr GeomInst := do
  if t.length ≠ 5 then throw (PyErr.runtimeError "Invalid state!")
  let p := LayerGeometry.fresh GeomKind.base
  let bid ← getItem t 0 >>= castInt
  let p := { p with bid := toUInt32 bid }
  let mid ← getItem t 1 >>= castInt
  let p := { p with mid := toUInt32 mid }
  let arr ← getItem t 2 >>= ensureArray
  let r ← arr.shapeAt 0
  let c ← arr.shapeAt 1
  let buf ← memcpyFrom (r * c) arr
  let p := { p with coords := { rows := r, cols := c, data := buf } }
  let py_state ← getItem t 3 >>= castDict
  return { obj := p, dict := py_state }

/-- The `__setstate__` lambda shared, word for word, by `ContourGeometry`, `HatchGeometry`
and `PointsGeometry`; `k` is the class that `std::make_shared` instantiates. -/
def subclassSetstate (k : GeomKind) (t : List PyVal) : Except PyErr GeomInst := do
  if t.length ≠ 4 then throw (PyErr.runtimeError "Invalid state!")
  let p := LayerGeometry.fresh k
  let bid ← getItem t 0 >>= castInt
  let p := { p with bid := toUInt32 bid }
  let mid ← getItem t 1 >>= castInt
  let p := { p with mid := toUInt32 mid }
  let coords ← getItem t 2 >>= castMatrix
  let p := { p with coords := coords }
  let py_state ← getItem t 3 >>= castDict
  return { obj := p, dict := py_state }

/-- The `__setstate__` lambda of the geometry class `k`. -/
def geomSetstate (k : GeomKind) (t : List PyVal) : Except PyErr GeomInst :=
  match k with
  | .base => layerGeometrySetstate t
  | k => subclassSetstate k t

/-! ## Header -/

/-- The number of fields the `__setstate__` lambda of `Header` accepts. -/
def headerAcceptedSize : Nat := 4

/-- Modelled from the spec: the getter `Header::version` is declared in `App/Header.h`, which
is not among the sources; the spec gives `version = (major, minor)`, and the restore lambda
reads it back as a pair. -/
def Header.version (h : Header) : PyVal :=
  PyVal.tuple [PyVal.int h.vMajor, PyVal.int h.vMinor]

/-- The `__getstate__` lambda of `Header`; `dict` is the instance `__dict__`. -/
def Header.getstate (h : Header) (dict : PyDict) : List PyVal :=
  [PyVal.str h.fileName, h.version, PyVal.int h.zUnit, PyVal.dict dict]

/-- The `__setstate__` lambda of `Header`.  `blank` is what the default constructor
`slm::Header()` yields (declared in `App/Header.h`). -/
def Header.setstate (blank : Header) (t : List PyVal) : Except PyErr Header := do
  if t.length ≠ headerAcceptedSize then throw (PyErr.runtimeError "Invalid state!")
  let p := blank
  let fileName ← getItem t 0 >>= castString
  let p := { p with fileName := fileName }
  let version ← getItem t 1 >>= castTuple
  let vMajor ← getItem version 0 >>= castInt
  let p := { p with vMajor := vMajor }
  let vMinor ← getItem version 1 >>= castInt
  let p := { p with vMinor := vMinor }
  let zUnit ← getItem t 2 >>= castInt
  let p := { p with zUnit := zUnit }
  return p

/-! ## BuildStyle -/

/-- A Python instance of `BuildStyle`. -/
structure BuildStyleInst where
  obj : BuildStyle
  dict : PyDict

/-- The number of fields the `__setstate__` lambda of `BuildStyle` accepts
(`t.size() != 7`). -/
def buildStyleAcceptedSize : Nat := 7

/-- The `__getstate__` lambda of `BuildStyle`. -/
def BuildStyleInst.getstate (self : BuildStyleInst) : List PyVal :=
  [PyVal.int self.obj.id,
   PyVal.float self.obj.laserPower, PyVal.float self.obj.laserSpeed,
   PyVal.float self.obj.laserFocus,
   PyVal.int self.obj.pointDistance, PyVal.int self.obj.pointExposureTime,
   PyVal.int self.obj.laserId, PyVal.laserMode self.obj.laserMode,
   PyVal.str self.obj.name, PyVal.str self.obj.description,
   PyVal.int self.obj.pointDelay,
   PyVal.int self.obj.jumpDelay, PyVal.int self.obj.jumpSpeed,
   PyVal.str self.obj.description,
   PyVal.dict self.dict]

/-- The `__setstate__` lambda of `BuildStyle`.  `blank` is what
`std::make_shared<BuildStyle>()` yields. -/
def buildStyleSetstate (blank : BuildStyle) (t : List PyVal) : Except PyErr BuildStyleInst := do
  if t.length ≠ buildStyleAcceptedSize then throw (PyErr.runtimeError "Invalid state!")
  let p := blank
  let id ← getItem t 0 >>= castInt
  let p := { p with id := id }
  let laserPower ← getItem t 1 >>= castFloat
  let p := { p with laserPower := laserPower }
  let laserSpeed ← getItem t 2 >>= castFloat
  let p := { p with laserSpeed := laserSpeed }
  let laserFocus ← getItem t 3 >>= castFloat
  let p := { p with laserFocus := laserFocus }
  let pointDistance ← getItem t 4 >>= castInt
  let p := { p with pointDistance := pointDistance }
  let pointExposureTime ← getItem t 5 >>= castInt
  let p := { p with pointExposureTime := pointExposureTime }
  let laserId ← getItem t 6 >>= castInt
  let p := { p with laserId := laserId }
  let laserMode ← getItem t 7 >>= castLaserMode
  let p := { p with laserMode := laserMode }
  let name ← getItem t 8 >>= castString
  let p := { p with name := name }
  let description ← getItem t 9 >>= castString
  let p := { p with description := description }
  let pointDelay ← getItem t 10 >>= castInt
  let p := { p with pointDelay := pointDelay }
  let jumpDelay ← getItem t 11 >>= castInt
  let p := { p with jumpDelay := jumpDelay }
  let jumpSpeed ← getItem t 12 >>= castInt
  let p := { p with jumpSpeed := jumpSpeed }
  let description2 ← getItem t 13 >>= castString
  let p := { p with description := description2 }
  let py_state ← getItem t 14 >>= castDict
  return { obj := p, dict := py_state }

/-- The parameters of the bound `setStyle`, in order, each with its default if it has one
(`py::arg("speed") = 0.0`, `py::arg("laserId") = 1`,
`py::arg("laserMode") = slm::LaserMode::PULSE`). -/
def setStyleParams : List (String × Option PyVal) :=
  [("bid", none), ("focus", none), ("power", none),
   ("pointExposureTime", none), ("pointExposureDistance", none),
   ("speed", some (PyVal.float F32.zero)),
   ("laserId", some (PyVal.int 1)),
   ("laserMode", some (PyVal.laserMode LaserMode.PULSE))]

/-- How pybind11 fills the parameters that the positional arguments left open: from the
keyword arguments first, then from the declared default; a parameter with neither makes the
call fail with `TypeError`. -/
def fillParams : List (String × Option PyVal) → List (String × PyVal) →
    Except PyErr (List PyVal)
  | [], _ => .ok []
  | (name, dflt) :: rest, kwargs =>
    match kwargs.lookup name, dflt with
    | some v, _ => (fillParams rest kwargs).map (fun vs => v :: vs)
    | none, some d => (fillParams rest kwargs).map (fun vs => d :: vs)
    | none, none => .error PyErr.typeError

/-- The argument list a bound function receives for a call with positional arguments `args`
and keyword arguments `kwargs`.  Too many positional arguments, a keyword that names no
parameter, and a keyword for a parameter already given by position are `TypeError`s. -/
def bindArgs (params : List (String × Option PyVal)) (args : List PyVal)
    (kwargs : List (String × PyVal)) : Except PyErr (List PyVal) :=
  if params.length < args.length then .error PyErr.typeError
  else if kwargs.any (fun kv => !((params.drop args.length).map Prod.fst).contains kv.1) then
    .error PyErr.typeError
  else (fillParams (params.drop args.length) kwargs).map (fun vs => args ++ vs)

/-- The bound method `BuildStyle.setStyle`.  `core` stands for the conversion of the eight
arguments and the C++ member `BuildStyle::setStyle`, which `App/Model.h` declares. -/
def boundSetStyle (core : BuildStyle → List PyVal → Except PyErr BuildStyle)
    (self : BuildStyle) (args : List PyVal) (kwargs : List (String × PyVal)) :
    Except PyErr BuildStyle :=
  match bindArgs setStyleParams args kwargs with
  | .ok vs => core self vs
  | .error e => .error e

/-! ## Model -/

/-- A Python instance of `Model`. -/
structure ModelInst where
  obj : Model
  dict : PyDict

/-- The number of fields the `__setstate__` lambda of `Model` accepts (`t.size() != 5`). -/
def modelAcceptedSize : Nat := 5

/-- The `__getstate__` lambda of `Model`. -/
def ModelInst.getstate (self : ModelInst) : List PyVal :=
  [PyVal.int self.obj.mid,
   PyVal.str self.obj.name,
   PyVal.str self.obj.buildStyleName,
   PyVal.str self.obj.buildStyleDescription,
   PyVal.int self.obj.topLayerId,
   PyVal.vectorBuildStyle self.obj.buildStyles,
   PyVal.dict self.dict]

/-- The `__setstate__` lambda of `Model`.  `blank` carries what the constructor
`Model(mid, topSliceNum)` leaves in the members it does not receive.  The two constructor
arguments are read left to right. -/
def modelSetstate (blank : Model) (t : List PyVal) : Except PyErr ModelInst := do
  if t.length ≠ modelAcceptedSize then throw (PyErr.runtimeError "Invalid state!")
  let mid ← getItem t 0 >>= castInt
  let top ← getItem t 4 >>= castInt
  let p := { blank with mid := toUInt64 mid, topLayerId := toUInt64 top }
  let name ← getItem t 1 >>= castString
  let p := { p with name := name }
  let styleName ← getItem t 2 >>= castString
  let p := { p with buildStyleName := styleName }
  let styleDescription ← getItem t 3 >>= castString
  let p := { p with buildStyleDescription := styleDescription }
  let styles ← getItem t 5 >>= castBuildStyleVector
  let p := { p with buildStyles := styles }
  let py_state ← getItem t 6 >>= castDict
  return { obj := p, dict := py_state }

/-! ## Layer -/

/-- A Python instance of `Layer`. -/
structure LayerInst where
  obj : Layer
  dict : PyDict

/-- The number of fields the `__setstate__` lambda of `Layer` accepts. -/
def layerAcceptedSize : Nat := 4

/-- The `__getstate__` lambda of `Layer`. -/
def LayerInst.getstate (self : LayerInst) : List PyVal :=
  [PyVal.int self.obj.layerId, PyVal.int self.obj.z,
   PyVal.vectorLayerGeometry self.obj.geometry, PyVal.dict self.dict]

/-- The `__setstate__` lambda of `Layer`.  `blank` carries what the constructor
`Layer(id, z)` leaves in the members it does not receive.  The two constructor arguments are
read left to right. -/
def layerSetstate (blank : Layer) (t : List PyVal) : Except PyErr LayerInst := do
  if t.length ≠ layerAcceptedSize then throw (PyErr.runtimeError "Invalid state!")
  let id ← getItem t 0 >>= castInt
  let z ← getItem t 1 >>= castInt
  let p := { blank with layerId := toUInt64 id, z := toUInt64 z }
  let geometry ← getItem t 2 >>= castGeometryVector
  let p := { p with geometry := geometry }
  let py_state ← getItem t 3 >>= castDict
  return { obj := p, dict := py_state }

/-! ## The command-line dispatcher (`src/main.cpp`) -/

/-- What the dispatcher can observe of the file system.  `readFile` gives the bytes of each
file that `std::ifstream` can open, `canCreate` tells whether `std::ofstream` can create or
truncate a path, `room` how many bytes the file then takes before a write to it fails
(`none` when there is no limit; `some 0` for a destination that opens and takes nothing),
and `sameFile` whether two paths name one file (the same path, or two names of one file):
two streams opened on one file work on the same bytes, and a file gives back to a reader the
bytes it has taken. -/
structure World where
  readFile : String → Option String
  canCreate : String → Bool
  room : String → Option Nat
  sameFile : String → String → Bool

/-- What one run leaves behind: the exit status, the lines sent to `std::cout` and
`std::cerr`, and the output file it created, if any, with the bytes that file took. -/
structure Run where
  status : Int
  out : List String
  err : List String
  written : Option (String × String)

/-- The lines a loop `while (std::getline(in, line))` reads from the remaining characters;
`cur` holds, reversed, the characters of the line being read.  At the end of the input a
line is delivered only if at least one character was extracted. -/
def getlinesAux : List Char → List Char → List String
  | [], cur => if cur = [] then [] else [String.mk cur.reverse]
  | c :: cs, cur =>
    if c = '\n' then String.mk cur.reverse :: getlinesAux cs [] else getlinesAux cs (c :: cur)

/-- All the lines `std::getline` delivers from a file with these contents. -/
def getlines (content : String) : List String := getlinesAux content.data []

/-- The stream `outputFile`: the bytes its file holds, the bytes the file can still take,
and whether a write has failed (`badbit`). -/
structure OutStream where
  stored : List Char
  room : Option Nat
  bad : Bool

/-- One statement `outputFile << ... << std::endl`: the bytes are flushed to the file at
once.  On a stream that has failed nothing is written; when the file cannot take all the
bytes it keeps what fits and the stream fails.  The program never tests the stream. -/
def OutStream.write (o : OutStream) (bytes : List Char) : OutStream :=
  if o.bad then o
  else
    match o.room with
    | none => { o with stored := o.stored ++ bytes }
    | some n =>
      if bytes.length ≤ n then
        { o with stored := o.stored ++ bytes, room := some (n - bytes.length) }
      else
        { stored := o.stored ++ bytes.take n, room := some 0, bad := true }

/-- The stream `inputFile`.  `own`: the input is a file of its own, with these bytes still
unread.  `shared`: the input is the file the output stream truncated and writes to, of which
`pos` bytes have been read.  `eof` tells that a read has reached the end of the file. -/
inductive InStream where
  | own (unread : List Char) (eof : Bool)
  | shared (pos : Nat) (eof : Bool)

/-- The characters up to the first newline, with what follows it; `none` for what follows
when the end of the input comes first.  `cur` holds, reversed, the characters taken so far. -/
def takeLine : List Char → List Char → List Char × Option (List Char)
  | [], cur => (cur.reverse, none)
  | c :: cs, cur => if c = '\n' then (cur.reverse, some cs) else takeLine cs (c :: cur)

/-- One call `std::getline(inputFile, line)`; `stored` is what the output file holds at that
moment.  The call fails (`none`) once the end of the file has been reached or when no
character is left; otherwise it delivers the line and the stream after it. -/
def getline (i : InStream) (stored : List Char) : Option (String × InStream) :=
  match i with
  | .own unread eof =>
    if eof then none
    else if unread = [] then none
    else
      match takeLine unread [] with
      | (l, some rest) => some (String.mk l, InStream.own rest false)
      | (l, none) => some (String.mk l, InStream.own [] true)
  | .shared pos eof =>
    if eof then none
    else if stored.drop pos = [] then none
    else
      match takeLine (stored.drop pos) [] with
      | (l, some _) => some (String.mk l, InStream.shared (pos + l.length + 1) false)
      | (l, none) => some (String.mk l, InStream.shared (pos + l.length) true)

/-- The loop `while (std::getline(inputFile, line)) outputFile << tag << line << std::endl;`,
followed for at most `fuel` calls of `std::getline`: the output stream when the loop ends,
`none` when it has not ended by then. -/
def copyLoop (tag : String) : Nat → InStream → OutStream → Option OutStream
  | 0, _, _ => none
  | fuel + 1, i, o =>
    match getline i o.stored with
    | none => some o
    | some (line, i2) => copyLoop tag fuel i2 (o.write (tag ++ line ++ "\n").data)

/-- The body the three mode branches share, up to their string literals: `label` is the name
printed on `std::cout`, `banner` the first output line, `tag` what each copied line is
preceded by.  Opening the output stream truncates its file: when that file is the input
file, the input stream reads from then on what the output stream writes.  The result is
`none` when the copy loop has not ended within `fuel` reads. -/
def runMode (fuel : Nat) (label banner tag : String) (inputFilename content : String)
    (outputFilename : String) (w : World) (out : List String) : Option Run :=
  let out := out ++ ["Processing " ++ label ++ " file..."]
  if w.canCreate outputFilename then
    let o := OutStream.write ⟨[], w.room outputFilename, false⟩ (banner ++ "\n").data
    let i := if w.sameFile inputFilename outputFilename then InStream.shared 0 false
             else InStream.own content.data false
    match copyLoop tag fuel i o with
    | some o2 =>
      some { status := 0,
             out := out ++ [label ++ " processing complete. Output written to " ++ outputFilename],
             err := [],
             written := some (outputFilename, String.mk o2.stored) }
    | none => none
  else
    some { status := 1, out := out,
           err := ["Error: Cannot create output file " ++ outputFilename],
           written := none }

/-- The variable `mode`: `argv[1]`. -/
def modeOf (argv : List String) : String := argv.getD 1 ""

/-- The variable `inputFilename`: `argv[2]`. -/
def inputFilenameOf (argv : List String) : String := argv.getD 2 ""

/-- The variable `outputFilename`: `(argc > 3) ? argv[3] : "output.txt"`. -/
def outputFilenameOf (argv : List String) : String :=
  if argv.length > 3 then argv.getD 3 "" else "output.txt"

/-- The function `main`; `argv` holds `argc` strings.  The run is followed for at most `fuel`
reads of the copy loop; `none` means that it has not returned by then. -/
def main (fuel : Nat) (argv : List String) (w : World) : Option Run :=
  if argv.length < 3 then
    some { status := 1, out := [],
           err := ["Usage: " ++ argv.getD 0 "" ++ " <mode> <input_file> [output_file]",
                   "Modes: mtt, realizer, eos"],
           written := none }
  else
    let mode := modeOf argv
    let inputFilename := inputFilenameOf argv
    let outputFilename := outputFilenameOf argv
    let out := ["Processing file: " ++ inputFilename, "Mode: " ++ mode]
    match w.readFile inputFilename with
    | none =>
      some { status := 1, out := out,
             err := ["Error: Cannot open input file " ++ inputFilename], written := none }
    | some content =>
      if mode = "mtt" then
        runMode fuel "MTT" "# MTT Processing Output" "MTT: " inputFilename content
          outputFilename w out
      else if mode = "realizer" then
        runMode fuel "Realizer" "# Realizer Processing Output" "REALIZER: " inputFilename
          content outputFilename w out
      else if mode = "eos" then
        runMode fuel "EOS" "# EOS Processing Output" "EOS: " inputFilename content
          outputFilename w out
      else
        some { status := 1, out := out,
               err := ["Error: Invalid mode \x27" ++ mode ++
                       "\x27. Valid modes are: mtt, realizer, eos"],
               written := none }

/-- The file system after a run: the created output file holds what it took, under each of
its names, and every other path holds what it held. -/
def filesAfter (w : World) (r : Run) (path : String) : Option String :=
  match r.written with
  | some (p, content) => if w.sameFile path p then some content else w.readFile path
  | none => w.readFile path

/-- Whether the file at `path` can take `bytes` bytes. -/
def World.hasRoom (w : World) (path : String) (bytes : Nat) : Bool :=
  match w.room path with
  | none => true
  | some n => decide (bytes ≤ n)

/-- A header line followed by the given lines, each preceded by `tag` and ended by a
newline. -/
def taggedCopy (banner tag : String) (lines : List String) : String :=
  banner ++ "\n" ++ String.join (lines.map (fun line => tag ++ line ++ "\n"))

/-- An output line without the first `tag.length` characters. -/
def stripTag (tag line : String) : String := String.mk (line.data.drop tag.length)

/-! ## The restore lambdas with the conversions as parameters -/

/-- The conversions `h.cast<T>()` that the restore lambdas of BuildStyle and Model call. -/
structure Casts where
  asInt : PyVal → Except PyErr Int
  asFloat : PyVal → Except PyErr F32
  asLaserMode : PyVal → Except PyErr LaserMode
  asString : PyVal → Except PyErr String
  asDict : PyVal → Except PyErr PyDict
  asBuildStyleVector : PyVal → Except PyErr (List BuildStyle)

/-- The conversions as this development represents them. -/
def pybindCasts : Casts :=
  { asInt := castInt, asFloat := castFloat, asLaserMode := castLaserMode,
    asString := castString, asDict := castDict, asBuildStyleVector := castBuildStyleVector }

/-- The `__setstate__` lambda of `BuildStyle`, statement by statement as
`buildStyleSetstate`, for arbitrary outcomes of the conversions. -/
def buildStyleSetstateWith (c : Casts) (blank : BuildStyle) (t : List PyVal) :
    Except PyErr BuildStyleInst := do
  if t.length ≠ buildStyleAcceptedSize then throw (PyErr.runtimeError "Invalid state!")
  let p := blank
  let id ← getItem t 0 >>= c.asInt
  let p := { p with id := id }
  let laserPower ← getItem t 1 >>= c.asFloat
  let p := { p with laserPower := laserPower }
  let laserSpeed ← getItem t 2 >>= c.asFloat
  let p := { p with laserSpeed := laserSpeed }
  let laserFocus ← getItem t 3 >>= c.asFloat
  let p := { p with laserFocus := laserFocus }
  let pointDistance ← getItem t 4 >>= c.asInt
  let p := { p with pointDistance := pointDistance }
  let pointExposureTime ← getItem t 5 >>= c.asInt
  let p := { p with pointExposureTime := pointExposureTime }
  let laserId ← getItem t 6 >>= c.asInt
  let p := { p with laserId := laserId }
  let laserMode ← getItem t 7 >>= c.asLaserMode
  let p := { p with laserMode := laserMode }
  let name ← getItem t 8 >>= c.asString
  let p := { p with name := name }
  let description ← getItem t 9 >>= c.asString
  let p := { p with description := description }
  let pointDelay ← getItem t 10 >>= c.asInt
  let p := { p with pointDelay := pointDelay }
  let jumpDelay ← getItem t 11 >>= c.asInt
  let p := { p with jumpDelay := jumpDelay }
  let jumpSpeed ← getItem t 12 >>= c.asInt
  let p := { p with jumpSpeed := jumpSpeed }
  let description2 ← getItem t 13 >>= c.asString
  let p := { p with description := description2 }
  let py_state ← getItem t 14 >>= c.asDict
  return { obj := p, dict := py_state }

/-- The `__setstate__` lambda of `Model`, statement by statement as `modelSetstate`, for
arbitrary outcomes of the conversions. -/
def modelSetstateWith (c : Casts) (blank : Model) (t : List PyVal) :
    Except PyErr ModelInst := do
  if t.length ≠ modelAcceptedSize then throw (PyErr.runtimeError "Invalid state!")
  let mid ← getItem t 0 >>= c.asInt
  let top ← getItem t 4 >>= c.asInt
  let p := { blank with mid := toUInt64 mid, topLayerId := toUInt64 top }
  let name ← getItem t 1 >>= c.asString
  let p := { p with name := name }
  let styleName ← getItem t 2 >>= c.asString
  let p := { p with buildStyleName := styleName }
  let styleDescription ← getItem t 3 >>= c.asString
  let p := { p with buildStyleDescription := styleDescription }
  let styles ← getItem t 5 >>= c.asBuildStyleVector
  let p := { p with buildStyles := styles }
  let py_state ← getItem t 6 >>= c.asDict
  return { obj := p, dict := py_state }

/-! ## Lemmas on coordinate transfer -/

theorem map_getD_range (l : List F32) (d : F32) :
    (List.range l.length).map (fun k => l.getD k d) = l := by
  apply List.ext_getElem
  · simp
  · intro n h1 h2
    simp [List.getD_eq_getElem, h2]

theorem colmajor_offset (r k : Nat) : k % r * 1 + k / r * r = k := by
  rw [Nat.mul_one, Nat.add_comm, Nat.mul_comm]
  exact Nat.div_add_mod k r

theorem castMatrix_getCoords (g : LayerGeometry) (hwf : g.coords.WF) :
    castMatrix (PyVal.ndarray (getCoords g)) = .ok g.coords := by
  obtain ⟨k, mid, bid, ⟨r, c, data⟩⟩ := g
  simp only [Matrix.WF] at hwf
  have hb : (getCoords ⟨k, mid, bid, ⟨r, c, data⟩⟩).inBounds2 r c = true := by
    simp only [NdArray.inBounds2, getCoords, List.getD_cons_zero, List.getD_cons_succ,
      Bool.or_eq_true, decide_eq_true_eq]
    rcases Nat.eq_zero_or_pos r with h | h
    · left; left; exact h
    · rcases Nat.eq_zero_or_pos c with h2 | h2
      · left; right; exact h2
      · right
        rw [hwf]
        obtain ⟨r1, rfl⟩ : ∃ r1, r = r1 + 1 := ⟨r - 1, by omega⟩
        obtain ⟨c1, rfl⟩ : ∃ c1, c = c1 + 1 := ⟨c - 1, by omega⟩
        simp only [Nat.add_sub_cancel]
        nlinarith
  have hd : (List.range (r * c)).map
      (fun k2 => (getCoords ⟨k, mid, bid, ⟨r, c, data⟩⟩).at2 (k2 % r) (k2 / r)) = data := by
    have : ∀ k2, (getCoords ⟨k, mid, bid, ⟨r, c, data⟩⟩).at2 (k2 % r) (k2 / r)
        = data.getD k2 F32.zero := by
      intro k2
      simp only [NdArray.at2, getCoords, List.getD_cons_zero, List.getD_cons_succ]
      rw [colmajor_offset]
    simp only [this]
    rw [← hwf]
    exact map_getD_range data F32.zero
  simp only [castMatrix]
  show (if (getCoords ⟨k, mid, bid, ⟨r, c, data⟩⟩).inBounds2 r c = true then _ else _) = _
  rw [if_pos hb, hd]

theorem castInt_of_uint (n : Nat) (h : (n : Int) ≤ INT_MAX) :
    castInt (PyVal.int n) = .ok (n : Int) := by
  have h0 : INT_MIN ≤ (n : Int) := by unfold INT_MIN; omega
  simp [castInt, loadInteger, h0, h]

theorem toUInt32_of_uint (n : Nat) (h : (n : Int) ≤ INT_MAX) : toUInt32 (n : Int) = n := by
  unfold INT_MAX at h
  unfold toUInt32
  omega

theorem castInt_of_int (v : Int) (h1 : INT_MIN ≤ v) (h2 : v ≤ INT_MAX) :
    castInt (PyVal.int v) = .ok v := by
  simp [castInt, loadInteger, h1, h2]

/-- Whatever the header holds, its restore returns the captured `fileName`, `version` and
`zUnit` and the creator of the default-constructed Header. -/
theorem header_restore_general (blank h : Header) (dict : PyDict)
    (hM : INT_MIN ≤ h.vMajor ∧ h.vMajor ≤ INT_MAX) (hm : INT_MIN ≤ h.vMinor ∧ h.vMinor ≤ INT_MAX)
    (hz : INT_MIN ≤ h.zUnit ∧ h.zUnit ≤ INT_MAX) :
    Header.setstate blank (h.getstate dict) = .ok { h with creator := blank.creator } := by
  obtain ⟨fileName, creator, vMajor, vMinor, zUnit⟩ := h
  have h1 := castInt_of_int vMajor hM.1 hM.2
  have h2 := castInt_of_int vMinor hm.1 hm.2
  have h3 := castInt_of_int zUnit hz.1 hz.2
  simp only at h1 h2 h3
  simp [Header.setstate, Header.getstate, Header.version, headerAcceptedSize, getItem, bind,
    Except.bind, pure, Except.pure, castString, castTuple, h1, h2, h3]

/-- Assigning a row-major array and reading `coords` back exposes the same memory under
column-major strides. -/
theorem coords_set_then_get (g : LayerGeometry) (rows cols : Nat) (elems : List F32)
    (h : elems.length = rows * cols) :
    (setCoords g (NdArray.rowMajor rows cols elems)).1 = .ok () ∧
    getCoords (setCoords g (NdArray.rowMajor rows cols elems)).2
      = { shape := [rows, cols], strides := [1, rows], data := elems } := by
  have hsz : (NdArray.rowMajor rows cols elems).size = rows * cols := by
    simp [NdArray.size, NdArray.rowMajor]
  have hmem : memcpyFrom (rows * cols) (NdArray.rowMajor rows cols elems) = .ok elems := by
    unfold memcpyFrom
    rw [hsz]
    have hd : (NdArray.rowMajor rows cols elems).data = elems := rfl
    rw [hd, if_pos rfl, ← h, List.take_length]
  have hnd : (NdArray.rowMajor rows cols elems).ndim = 2 := rfl
  have hs0 : (NdArray.rowMajor rows cols elems).shape.getD 0 0 = rows := rfl
  have hs1 : (NdArray.rowMajor rows cols elems).shape.getD 1 0 = cols := rfl
  unfold setCoords
  rw [hs0, hs1, hmem]
  simp [hnd, getCoords]

/-- The restore lambda of the base class fails on the captured state of every base
object: whenever the first three fields are read successfully, index 3 holds the type tag. -/
theorem base_restore_never_succeeds (mid bid : Nat) (coords : Matrix) (dict : PyDict)
    (r : GeomInst) :
    geomSetstate GeomKind.base (GeomInst.mk ⟨GeomKind.base, mid, bid, coords⟩ dict).getstate
      ≠ .ok r := by
  intro h
  simp only [geomSetstate, layerGeometrySetstate, GeomInst.getstate, getItem, bind,
    Except.bind, pure, Except.pure, castDict, ensureArray, NdArray.shapeAt, getCoords] at h
  repeat' split at h
  all_goals simp_all

/-! ## State capture and restore of the geometry subclasses -/

/-- Restoring the captured state of a contour, hatch or points object whose ids fit a C++
`int` gives back the object and its `__dict__`. -/
theorem subclass_restore_general (self : GeomInst) (hk : self.obj.kind ≠ GeomKind.base)
    (hwf : self.obj.coords.WF) (hbid : (self.obj.bid : Int) ≤ INT_MAX)
    (hmid : (self.obj.mid : Int) ≤ INT_MAX) :
    geomSetstate self.obj.kind self.getstate = .ok self := by
  obtain ⟨⟨k, mid, bid, coords⟩, dict⟩ := self
  have hc := castMatrix_getCoords ⟨k, mid, bid, coords⟩ hwf
  have h1 := castInt_of_uint bid hbid
  have h2 := castInt_of_uint mid hmid
  have h3 := toUInt32_of_uint bid hbid
  have h4 := toUInt32_of_uint mid hmid
  simp only at hk hc
  cases k
  · exact absurd rfl hk
  all_goals
    simp [geomSetstate, subclassSetstate, GeomInst.getstate, getItem, bind, Except.bind,
      pure, Except.pure, h1, h2, h3, h4, hc, castDict, LayerGeometry.fresh]

/-- C1 fails on the code: the `bid` setter of a contour object accepts 2^31, a value of the
`uint32_t` member; the capture lambda writes it at index 0; and the restore lambda raises
on `t[0].cast<int>()` instead of yielding the object back. -/
theorem C1_restore_rejects_captured_bid :
    ((2147483648 : Nat) : Int) ≤ UINT32_MAX ∧
    (GeomInst.mk ⟨GeomKind.contour, 0, 0, Matrix.empty⟩ []).setattr "bid" (PyVal.int 2147483648)
      = (.ok (), GeomInst.mk ⟨GeomKind.contour, 0, 2147483648, Matrix.empty⟩ []) ∧
    (GeomInst.mk ⟨GeomKind.contour, 0, 2147483648, Matrix.empty⟩ []).obj.coords.WF ∧
    getItem (GeomInst.mk ⟨GeomKind.contour, 0, 2147483648, Matrix.empty⟩ []).getstate 0
      = .ok (PyVal.int 2147483648) ∧
    geomSetstate GeomKind.contour
      (GeomInst.mk ⟨GeomKind.contour, 0, 2147483648, Matrix.empty⟩ []).getstate
      = .error PyErr.castError :=
  ⟨by decide, rfl, by decide, rfl, rfl⟩

/-! ## Field counts and indices of capture and restore -/

/-- C2 fails on the code: a default BuildStyle is captured as 15 fields while its restore
accepts 7 and so raises; a default Model is captured as 7 fields while its restore accepts
5 and so raises; and index 3 of a captured LayerGeometry holds the type tag, which the
restore lambda reads as the extension map. -/
theorem C2_capture_restore_mismatch :
    (BuildStyleInst.mk default []).getstate.length = 15 ∧ buildStyleAcceptedSize = 7 ∧
    buildStyleSetstate default (BuildStyleInst.mk default []).getstate
      = .error (PyErr.runtimeError "Invalid state!") ∧
    (ModelInst.mk default []).getstate.length = 7 ∧ modelAcceptedSize = 5 ∧
    modelSetstate default (ModelInst.mk default []).getstate
      = .error (PyErr.runtimeError "Invalid state!") ∧
    (GeomInst.mk (LayerGeometry.fresh GeomKind.base) []).getstate.length
      = geomAcceptedSize GeomKind.base ∧
    getItem (GeomInst.mk (LayerGeometry.fresh GeomKind.base) []).getstate 3
      = .ok (PyVal.geomType GeomType.INVALID) ∧
    getItem (GeomInst.mk (LayerGeometry.fresh GeomKind.base) []).getstate 4
      = .ok (PyVal.dict []) ∧
    geomSetstate GeomKind.base (GeomInst.mk (LayerGeometry.fresh GeomKind.base) []).getstate
      = .error PyErr.typeError :=
  ⟨rfl, rfl, rfl, rfl, rfl, rfl, rfl, rfl, rfl, rfl⟩

/-! ## Layer -/

theorem toUInt64_of_uint (n : Nat) (h : (n : Int) ≤ INT_MAX) : toUInt64 (n : Int) = n := by
  unfold INT_MAX at h
  unfold toUInt64
  omega

/-- Restoring the captured state of a Layer whose `layerId` and `z` fit a C++ `int` gives
back the same `layerId`, `z`, geometry sequence and `__dict__`. -/
theorem layer_restore_within_int (blank : Layer) (self : LayerInst)
    (hid : (self.obj.layerId : Int) ≤ INT_MAX) (hz : (self.obj.z : Int) ≤ INT_MAX) :
    ∃ r, layerSetstate blank self.getstate = .ok r ∧
      r.obj.layerId = self.obj.layerId ∧ r.obj.z = self.obj.z ∧
      r.obj.geometry.length = self.obj.geometry.length ∧
      (∀ i, r.obj.geometry.get? i = self.obj.geometry.get? i) ∧
      r.dict = self.dict := by
  obtain ⟨⟨layerId, z, geometry, loaded, pos⟩, dict⟩ := self
  have h1 := castInt_of_uint layerId hid
  have h2 := castInt_of_uint z hz
  have h3 := toUInt64_of_uint layerId hid
  have h4 := toUInt64_of_uint z hz
  refine ⟨⟨{ blank with layerId := layerId, z := z, geometry := geometry }, dict⟩, ?_,
    rfl, rfl, rfl, fun _ => rfl, rfl⟩
  simp [layerSetstate, LayerInst.getstate, layerAcceptedSize, getItem, bind, Except.bind,
    pure, Except.pure, h1, h2, h3, h4, castDict, castGeometryVector]

/-- C3 fails on the code: a layer whose `z` is 2^31, a value its `uint64_t` constructor
argument admits, is captured with that `z` at index 1, and the restore lambda raises on
`t[1].cast<int>()` instead of yielding the layer back. -/
theorem C3_restore_rejects_captured_z :
    ((2147483648 : Nat) : Int) ≤ UINT64_MAX ∧
    getItem (LayerInst.mk ⟨1, 2147483648, [], true, 0⟩ []).getstate 1
      = .ok (PyVal.int 2147483648) ∧
    layerSetstate ⟨0, 0, [], true, 0⟩
      (LayerInst.mk ⟨1, 2147483648, [], true, 0⟩ []).getstate = .error PyErr.castError :=
  ⟨by decide, rfl, rfl⟩

/-! ## Header -/

/-- C4 fails on the code: the capture lambda of Header writes `filename`, `version` and
`zUnit` only, so the restored Header carries the creator of a default-constructed Header
instead of the creator of the original. -/
theorem C4_header_restore_loses_creator :
    Header.setstate ⟨"", "", 0, 0, 0⟩
        (Header.getstate ⟨"part.mtt", "libSLM", 1, 2, 1000⟩ [])
      = .ok ⟨"part.mtt", "", 1, 2, 1000⟩ ∧
    (Header.mk "part.mtt" "" 1 2 1000).creator ≠ (Header.mk "part.mtt" "libSLM" 1 2 1000).creator :=
  ⟨rfl, by decide⟩

/-! ## The coords property -/

/-- C5 fails on the code: the setter copies the memory of a row-major 3 x 2 array into
column-major storage, so reading `coords` back returns the same shape with element (0, 1)
equal to 4.0 where the assigned array has 2.0. -/
theorem C5_coords_row_major_not_preserved :
    (setCoords (LayerGeometry.fresh GeomKind.base)
        (NdArray.rowMajor 3 2 [⟨1065353216⟩, ⟨1073741824⟩, ⟨1077936128⟩,
                               ⟨1082130432⟩, ⟨1084227584⟩, ⟨1086324736⟩])).1 = .ok () ∧
    (getCoords (setCoords (LayerGeometry.fresh GeomKind.base)
        (NdArray.rowMajor 3 2 [⟨1065353216⟩, ⟨1073741824⟩, ⟨1077936128⟩,
                               ⟨1082130432⟩, ⟨1084227584⟩, ⟨1086324736⟩])).2).shape = [3, 2] ∧
    (NdArray.rowMajor 3 2 [⟨1065353216⟩, ⟨1073741824⟩, ⟨1077936128⟩,
                           ⟨1082130432⟩, ⟨1084227584⟩, ⟨1086324736⟩]).at2 0 1
      = ⟨1073741824⟩ ∧
    (getCoords (setCoords (LayerGeometry.fresh GeomKind.base)
        (NdArray.rowMajor 3 2 [⟨1065353216⟩, ⟨1073741824⟩, ⟨1077936128⟩,
                               ⟨1082130432⟩, ⟨1084227584⟩, ⟨1086324736⟩])).2).at2 0 1
      = ⟨1082130432⟩ :=
  ⟨rfl, rfl, rfl, rfl⟩

/-! ## The read-only type tag -/

/-- C7: on every geometry instance an assignment to `type` is rejected and leaves the
instance (type, bid, mid, coords, extension map) as it was, and an assignment to `bid`,
`mid` or `coords` leaves the type unchanged, whatever value is assigned. -/
theorem C7_type_is_read_only (self : GeomInst) (v : PyVal) :
    self.setattr "type" v = (.error PyErr.attributeError, self) ∧
    (self.setattr "bid" v).2.obj.getType = self.obj.getType ∧
    (self.setattr "mid" v).2.obj.getType = self.obj.getType ∧
    (self.setattr "coords" v).2.obj.getType = self.obj.getType := by
  refine ⟨by simp [GeomInst.setattr], ?_, ?_, ?_⟩
  · unfold GeomInst.setattr
    rw [if_pos rfl]
    cases loadUInt32Arg v <;> rfl
  · unfold GeomInst.setattr
    rw [if_neg (by decide), if_pos rfl]
    cases loadUInt32Arg v <;> rfl
  · unfold GeomInst.setattr
    rw [if_neg (by decide), if_neg (by decide), if_pos rfl]
    cases h : loadArrayArg v with
    | error e => rfl
    | ok a =>
      simp only [setCoords]
      by_cases hn : a.ndim ≠ 2
      · simp [hn]
      · simp only [hn, if_false]
        cases memcpyFrom (a.shape.getD 0 0 * a.shape.getD 1 0) a <;> rfl

/-! ## Defaults of `setStyle` and the names of `LaserMode` -/

/-- C8: calling the bound `setStyle` with its five required arguments is the same as calling
it with `speed = 0.0`, `laserId = 1` and `laserMode = Pulse` added, by position or by
keyword; and the names "Default" and "Pulse" of `LaserMode` denote the same value. -/
theorem C8_setStyle_defaults (core : BuildStyle → List PyVal → Except PyErr BuildStyle)
    (self : BuildStyle) (bid focus power pointExposureTime pointExposureDistance : PyVal) :
    boundSetStyle core self [bid, focus, power, pointExposureTime, pointExposureDistance] []
      = boundSetStyle core self
          [bid, focus, power, pointExposureTime, pointExposureDistance,
           PyVal.float F32.zero, PyVal.int 1, PyVal.laserMode LaserMode.PULSE] [] ∧
    boundSetStyle core self [bid, focus, power, pointExposureTime, pointExposureDistance] []
      = boundSetStyle core self
          [bid, focus, power, pointExposureTime, pointExposureDistance]
          [("speed", PyVal.float F32.zero), ("laserId", PyVal.int 1),
           ("laserMode", PyVal.laserMode LaserMode.PULSE)] ∧
    laserModeByName "Pulse" = some LaserMode.PULSE ∧
    laserModeByName "Default" = laserModeByName "Pulse" :=
  ⟨rfl, rfl, rfl, rfl⟩

/-! ## BuildStyle and Model never restore -/

/-- C9: for every BuildStyle and every Model, the captured state has 15 respectively 7
fields while the restore lambda requires exactly 7 respectively 5, and restoring the
captured state fails with the error "Invalid state!". -/
theorem C9_buildstyle_model_restore_fails (blankStyle : BuildStyle) (b : BuildStyleInst)
    (blankModel : Model) (m : ModelInst) :
    b.getstate.length = 15 ∧ buildStyleAcceptedSize = 7 ∧
    buildStyleSetstate blankStyle b.getstate = .error (PyErr.runtimeError "Invalid state!") ∧
    m.getstate.length = 7 ∧ modelAcceptedSize = 5 ∧
    modelSetstate blankModel m.getstate = .error (PyErr.runtimeError "Invalid state!") :=
  ⟨rfl, rfl, rfl, rfl, rfl, rfl⟩

/-! ## The base LayerGeometry -/

/-- C10 fails on the code: the capture lambda of LayerGeometry writes the extension map at
index 4 and the type tag at index 3, the restore lambda converts index 3 to a dict, and so
restoring the captured state of a default LayerGeometry raises `TypeError`. -/
theorem C10_base_geometry_restore_fails :
    (GeomInst.mk (LayerGeometry.fresh GeomKind.base) []).getstate
      = [PyVal.int 0, PyVal.int 0, PyVal.ndarray ⟨[0, 0], [1, 0], []⟩,
         PyVal.geomType GeomType.INVALID, PyVal.dict []] ∧
    geomSetstate GeomKind.base (GeomInst.mk (LayerGeometry.fresh GeomKind.base) []).getstate
      = .error PyErr.typeError :=
  ⟨rfl, rfl⟩

/-! ## BuildStyle and Model accept no state at all -/

theorem buildStyleSetstate_eq_with (blank : BuildStyle) (t : List PyVal) :
    buildStyleSetstate blank t = buildStyleSetstateWith pybindCasts blank t := rfl

theorem modelSetstate_eq_with (blank : Model) (t : List PyVal) :
    modelSetstate blank t = modelSetstateWith pybindCasts blank t := rfl

theorem getItem_beyond (t : List PyVal) (i : Nat) (h : t.length ≤ i) :
    getItem t i = .error PyErr.indexError := by
  unfold getItem
  rw [List.get?_eq_none.mpr h]

theorem getItem_within (t : List PyVal) (i : Nat) (h : i < t.length) :
    ∃ v, getItem t i = .ok v := by
  unfold getItem
  rw [List.get?_eq_get h]
  exact ⟨_, rfl⟩

/-- A step `x >>= f` of a restore lambda fails, with an error that satisfies `P`, as soon as
every error of `x` satisfies `P` and the rest `f` fails with such an error on every value. -/
theorem bind_fails {α β : Type} (P : PyErr → Prop) (x : Except PyErr α)
    (f : α → Except PyErr β) (hx : ∀ e, x = .error e → P e)
    (hf : ∀ a, ∃ e, f a = .error e ∧ P e) :
    ∃ e, (x >>= f) = .error e ∧ P e := by
  cases x with
  | error e => exact ⟨e, rfl, hx e rfl⟩
  | ok a => exact hf a

/-- A step `getItem t i >>= k` fails only with `IndexError` or with an error of `k`. -/
theorem step_error {α : Type} (P : PyErr → Prop) (t : List PyVal) (i : Nat)
    (k : PyVal → Except PyErr α) (hP : P PyErr.indexError)
    (hk : ∀ v e, k v = .error e → P e) :
    ∀ e, (getItem t i >>= k) = .error e → P e := by
  intro e h
  unfold getItem at h
  cases hq : t.get? i with
  | none =>
    rw [hq] at h
    cases h
    exact hP
  | some v =>
    rw [hq] at h
    exact hk v e h

/-- On a 7-tuple the restore lambda of BuildStyle fails for whatever the conversions
return: at the latest `t[7]` raises. -/
theorem buildStyleSetstateWith_seven (c : Casts) (P : PyErr → Prop) (blank : BuildStyle)
    (t : List PyVal) (hlen : t.length = 7) (hP : P PyErr.indexError)
    (hInt : ∀ v e, c.asInt v = .error e → P e)
    (hFloat : ∀ v e, c.asFloat v = .error e → P e) :
    ∃ e, buildStyleSetstateWith c blank t = .error e ∧ P e := by
  unfold buildStyleSetstateWith
  simp only [hlen, buildStyleAcceptedSize, ne_eq, not_true_eq_false, if_false, pure_bind]
  refine bind_fails P _ _ (step_error P t 0 _ hP hInt) (fun _ => ?_)
  refine bind_fails P _ _ (step_error P t 1 _ hP hFloat) (fun _ => ?_)
  refine bind_fails P _ _ (step_error P t 2 _ hP hFloat) (fun _ => ?_)
  refine bind_fails P _ _ (step_error P t 3 _ hP hFloat) (fun _ => ?_)
  refine bind_fails P _ _ (step_error P t 4 _ hP hInt) (fun _ => ?_)
  refine bind_fails P _ _ (step_error P t 5 _ hP hInt) (fun _ => ?_)
  refine bind_fails P _ _ (step_error P t 6 _ hP hInt) (fun _ => ?_)
  rw [getItem_beyond t 7 (by omega)]
  exact ⟨PyErr.indexError, rfl, hP⟩

/-- On a 5-tuple the restore lambda of Model fails for whatever the conversions return: at
the latest `t[5]` raises. -/
theorem modelSetstateWith_five (c : Casts) (P : PyErr → Prop) (blank : Model)
    (t : List PyVal) (hlen : t.length = 5) (hP : P PyErr.indexError)
    (hInt : ∀ v e, c.asInt v = .error e → P e)
    (hString : ∀ v e, c.asString v = .error e → P e) :
    ∃ e, modelSetstateWith c blank t = .error e ∧ P e := by
  unfold modelSetstateWith
  simp only [hlen, modelAcceptedSize, ne_eq, not_true_eq_false, if_false, pure_bind]
  refine bind_fails P _ _ (step_error P t 0 _ hP hInt) (fun _ => ?_)
  refine bind_fails P _ _ (step_error P t 4 _ hP hInt) (fun _ => ?_)
  refine bind_fails P _ _ (step_error P t 1 _ hP hString) (fun _ => ?_)
  refine bind_fails P _ _ (step_error P t 2 _ hP hString) (fun _ => ?_)
  refine bind_fails P _ _ (step_error P t 3 _ hP hString) (fun _ => ?_)
  rw [getItem_beyond t 5 (by omega)]
  exact ⟨PyErr.indexError, rfl, hP⟩

/-- Whatever the conversions return, no tuple is accepted by the restore lambda of
BuildStyle or by the restore lambda of Model. -/
theorem restore_fails_for_any_conversions (c : Casts) (blankStyle : BuildStyle)
    (blankModel : Model) (t : List PyVal) :
    (∃ e, buildStyleSetstateWith c blankStyle t = .error e) ∧
    (∃ e, modelSetstateWith c blankModel t = .error e) := by
  constructor
  · by_cases h : t.length = 7
    · obtain ⟨e, he, _⟩ := buildStyleSetstateWith_seven c (fun _ => True) blankStyle t h
        trivial (fun _ _ _ => trivial) (fun _ _ _ => trivial)
      exact ⟨e, he⟩
    · exact ⟨PyErr.runtimeError "Invalid state!", by
        simp [buildStyleSetstateWith, buildStyleAcceptedSize, h, throw, throwThe,
          MonadExceptOf.throw, bind, Except.bind]⟩
  · by_cases h : t.length = 5
    · obtain ⟨e, he, _⟩ := modelSetstateWith_five c (fun _ => True) blankModel t h
        trivial (fun _ _ _ => trivial) (fun _ _ _ => trivial)
      exact ⟨e, he⟩
    · exact ⟨PyErr.runtimeError "Invalid state!", by
        simp [modelSetstateWith, modelAcceptedSize, h, throw, throwThe,
          MonadExceptOf.throw, bind, Except.bind]⟩

theorem castInt_error (v : PyVal) (e : PyErr) (h : castInt v = .error e) :
    e ≠ PyErr.runtimeError "Invalid state!" := by
  unfold castInt loadInteger at h
  cases v <;> simp at h <;> first | (subst h; simp) | skip
  split at h <;> simp at h
  subst h; simp

theorem castFloat_error (v : PyVal) (e : PyErr) (h : castFloat v = .error e) :
    e ≠ PyErr.runtimeError "Invalid state!" := by
  unfold castFloat at h
  cases v <;> simp at h <;> (subst h; simp)

theorem castString_error (v : PyVal) (e : PyErr) (h : castString v = .error e) :
    e ≠ PyErr.runtimeError "Invalid state!" := by
  unfold castString at h
  cases v <;> simp at h <;> (subst h; simp)

/-- A 7-tuple whose first seven fields convert reaches `t[7]`, and a 5-tuple whose fields
convert reaches `t[5]`: both raise `IndexError`. -/
theorem restore_reaches_missing_index :
    buildStyleSetstate default
        [PyVal.int 1, PyVal.float ⟨0⟩, PyVal.float ⟨0⟩, PyVal.float ⟨0⟩,
         PyVal.int 60, PyVal.int 80, PyVal.int 1] = .error PyErr.indexError ∧
    modelSetstate default
        [PyVal.int 1, PyVal.str "part", PyVal.str "", PyVal.str "", PyVal.int 9]
      = .error PyErr.indexError :=
  ⟨rfl, rfl⟩

/-- C11: the restore lambdas of BuildStyle and Model accept no tuple at all.  For every
tuple, BuildStyle's restore fails, with "Invalid state!" exactly when the length is not 7
(a tuple of length 7 fails on a conversion or, at the latest, on reading index 7); and
Model's restore fails, with "Invalid state!" exactly when the length is not 5 (a tuple of
length 5 fails on a conversion or, at the latest, on reading index 5). -/
theorem C11_restore_accepts_nothing (blankStyle : BuildStyle) (blankModel : Model)
    (t : List PyVal) :
    (∃ e, buildStyleSetstate blankStyle t = .error e ∧
      (e = PyErr.runtimeError "Invalid state!" ↔ t.length ≠ 7)) ∧
    (∃ e, modelSetstate blankModel t = .error e ∧
      (e = PyErr.runtimeError "Invalid state!" ↔ t.length ≠ 5)) := by
  constructor
  · rw [buildStyleSetstate_eq_with]
    by_cases h : t.length = 7
    · obtain ⟨e, he, hne⟩ := buildStyleSetstateWith_seven pybindCasts
        (fun e => e ≠ PyErr.runtimeError "Invalid state!") blankStyle t h
        (by simp) castInt_error castFloat_error
      exact ⟨e, he, ⟨fun h1 => absurd h1 hne, fun h2 => absurd h h2⟩⟩
    · refine ⟨PyErr.runtimeError "Invalid state!", ?_, ⟨fun _ => h, fun _ => rfl⟩⟩
      simp [buildStyleSetstateWith, buildStyleAcceptedSize, h, throw, throwThe,
        MonadExceptOf.throw, bind, Except.bind]
  · rw [modelSetstate_eq_with]
    by_cases h : t.length = 5
    · obtain ⟨e, he, hne⟩ := modelSetstateWith_five pybindCasts
        (fun e => e ≠ PyErr.runtimeError "Invalid state!") blankModel t h
        (by simp) castInt_error castString_error
      exact ⟨e, he, ⟨fun h1 => absurd h1 hne, fun h2 => absurd h h2⟩⟩
    · refine ⟨PyErr.runtimeError "Invalid state!", ?_, ⟨fun _ => h, fun _ => rfl⟩⟩
      simp [modelSetstateWith, modelAcceptedSize, h, throw, throwThe,
        MonadExceptOf.throw, bind, Except.bind]

/-! ## The lines the dispatcher copies -/

theorem getlinesAux_cons (c : Char) (cs cur : List Char) :
    getlinesAux (c :: cs) cur
      = if c = '\n' then String.mk cur.reverse :: getlinesAux cs [] else getlinesAux cs (c :: cur) :=
  rfl

theorem getlinesAux_line (l : List Char) (hl : '\n' ∉ l) (rest cur : List Char) :
    getlinesAux (l ++ '\n' :: rest) cur
      = String.mk (cur.reverse ++ l) :: getlinesAux rest [] := by
  induction l generalizing cur with
  | nil => rw [List.nil_append, getlinesAux_cons, if_pos rfl, List.append_nil]
  | cons c l ih =>
    have hc : c ≠ '\n' := fun h => hl (by simp [h])
    have hl2 : '\n' ∉ l := fun h => hl (by simp [h])
    rw [List.cons_append, getlinesAux_cons, if_neg hc, ih hl2]
    simp

theorem getlinesAux_no_newline (cs cur : List Char) (hcur : '\n' ∉ cur) :
    ∀ s ∈ getlinesAux cs cur, '\n' ∉ s.data := by
  induction cs generalizing cur with
  | nil =>
    intro s hs
    simp only [getlinesAux] at hs
    split at hs
    · simp at hs
    · simp only [List.mem_singleton] at hs
      subst hs
      simpa using hcur
  | cons c cs ih =>
    intro s hs
    simp only [getlinesAux] at hs
    split at hs
    · rcases List.mem_cons.mp hs with h | h
      · subst h
        simpa using hcur
      · exact ih [] (by simp) s h
    · rename_i hc
      exact ih (c :: cur) (by
        intro hmem
        rcases List.mem_cons.mp hmem with h | h
        · exact hc h.symm
        · exact hcur h) s hs

/-- Every line `std::getline` delivers is free of the newline character. -/
theorem getlines_no_newline (content : String) :
    ∀ s ∈ getlines content, '\n' ∉ s.data :=
  getlinesAux_no_newline content.data [] (by simp)

theorem getlinesAux_tagged (tag : String) (ht : '\n' ∉ tag.data) (ls : List String)
    (hls : ∀ l ∈ ls, '\n' ∉ l.data) :
    getlinesAux ((ls.map (fun line => tag ++ line ++ "\n")).map String.data).flatten []
      = ls.map (fun line => tag ++ line) := by
  induction ls with
  | nil => simp [getlinesAux]
  | cons l ls ih =>
    have hl : '\n' ∉ tag.data ++ l.data := by
      intro h
      rcases List.mem_append.mp h with h | h
      · exact ht h
      · exact hls l (by simp) h
    have hrest := ih (fun x hx => hls x (by simp [hx]))
    simp only [List.map_cons, List.flatten_cons, String.data_append]
    rw [List.append_assoc, List.singleton_append, getlinesAux_line _ hl, hrest]
    simp only [List.reverse_nil, List.nil_append]
    rfl

/-- The lines of an output file made of a banner line and tagged lines. -/
theorem getlines_output (banner tag : String) (hb : '\n' ∉ banner.data)
    (ht : '\n' ∉ tag.data) (ls : List String) (hls : ∀ l ∈ ls, '\n' ∉ l.data) :
    getlines (banner ++ "\n" ++ String.join (ls.map (fun line => tag ++ line ++ "\n")))
      = banner :: ls.map (fun line => tag ++ line) := by
  unfold getlines
  simp only [String.data_append, String.data_join]
  rw [List.append_assoc, List.singleton_append, getlinesAux_line _ hb,
    getlinesAux_tagged tag ht ls hls]
  simp

/-- A file written as newline-terminated lines is read back as those lines. -/
theorem getlines_of_lines (ls : List String) (hls : ∀ l ∈ ls, '\n' ∉ l.data) :
    getlines (String.join (ls.map (fun line => line ++ "\n"))) = ls := by
  have h := getlinesAux_tagged "" (by simp) ls hls
  simp only [String.empty_append] at h
  unfold getlines
  rw [String.data_join, h]
  simp

theorem stripTag_tagged (tag line : String) : stripTag tag (tag ++ line) = line := by
  obtain ⟨t⟩ := tag
  obtain ⟨l⟩ := line
  show String.mk ((t ++ l).drop t.length) = String.mk l
  rw [List.drop_left]

/-! ## The coords setter -/

theorem takeLine_cons (c : Char) (cs cur : List Char) :
    takeLine (c :: cs) cur
      = if c = '\n' then (cur.reverse, some cs) else takeLine cs (c :: cur) :=
  rfl

theorem takeLine_line (l : List Char) (hl : '\n' ∉ l) (rest cur : List Char) :
    takeLine (l ++ '\n' :: rest) cur = (cur.reverse ++ l, some rest) := by
  induction l generalizing cur with
  | nil => rw [List.nil_append, takeLine_cons, if_pos rfl, List.append_nil]
  | cons c l ih =>
    have hc : c ≠ '\n' := fun h => hl (by simp [h])
    have hl2 : '\n' ∉ l := fun h => hl (by simp [h])
    rw [List.cons_append, takeLine_cons, if_neg hc, ih hl2]
    simp

theorem takeLine_eof (l : List Char) (hl : '\n' ∉ l) (cur : List Char) :
    takeLine l cur = (cur.reverse ++ l, none) := by
  induction l generalizing cur with
  | nil => simp [takeLine]
  | cons c l ih =>
    have hc : c ≠ '\n' := fun h => hl (by simp [h])
    have hl2 : '\n' ∉ l := fun h => hl (by simp [h])
    rw [takeLine_cons, if_neg hc, ih hl2]
    simp

theorem getlinesAux_eof (l : List Char) (hl : '\n' ∉ l) (cur : List Char)
    (hne : cur.reverse ++ l ≠ []) :
    getlinesAux l cur = [String.mk (cur.reverse ++ l)] := by
  induction l generalizing cur with
  | nil =>
    have hcur : cur ≠ [] := by
      intro h
      subst h
      exact hne rfl
    simp [getlinesAux, hcur]
  | cons c l ih =>
    have hc : c ≠ '\n' := fun h => hl (by simp [h])
    have hl2 : '\n' ∉ l := fun h => hl (by simp [h])
    rw [getlinesAux_cons, if_neg hc, ih hl2 (c :: cur) (by simp)]
    simp

theorem split_at_newline (cs : List Char) :
    '\n' ∉ cs ∨ ∃ l rest, cs = l ++ '\n' :: rest ∧ '\n' ∉ l := by
  induction cs with
  | nil => left; simp
  | cons c cs ih =>
    by_cases hc : c = '\n'
    · right
      exact ⟨[], cs, by simp [hc], by simp⟩
    · rcases ih with h | ⟨l, rest, h1, h2⟩
      · left
        intro hmem
        rcases List.mem_cons.mp hmem with h3 | h3
        · exact hc h3.symm
        · exact h h3
      · right
        refine ⟨c :: l, rest, by simp [h1], ?_⟩
        intro hmem
        rcases List.mem_cons.mp hmem with h3 | h3
        · exact hc h3.symm
        · exact h2 h3

theorem copyLoop_succ (tag : String) (fuel : Nat) (i : InStream) (o : OutStream) :
    copyLoop tag (fuel + 1) i o =
      match getline i o.stored with
      | none => some o
      | some (line, i2) => copyLoop tag fuel i2 (o.write (tag ++ line ++ "\n").data) :=
  rfl

/-- On an input file of its own the copy loop ends within as many reads as the file has
bytes, plus one, and has then written the lines of the file in order, each with its tag. -/
theorem copyLoop_own (tag : String) (fuel : Nat) :
    ∀ (cs : List Char) (o : OutStream), cs.length < fuel →
      copyLoop tag fuel (InStream.own cs false) o
        = some ((getlinesAux cs []).foldl
            (fun o2 line => o2.write (tag ++ line ++ "\n").data) o) := by
  induction fuel with
  | zero => intro cs o h; omega
  | succ fuel ih =>
    intro cs o h
    rw [copyLoop_succ]
    by_cases hnil : cs = []
    · subst hnil
      simp [getline, getlinesAux]
    · rcases split_at_newline cs with hno | ⟨l, rest, hcs, hl⟩
      · have htake := takeLine_eof cs hno []
        have hlines := getlinesAux_eof cs hno [] (by simpa using hnil)
        simp only [List.reverse_nil, List.nil_append] at htake hlines
        have hfuel : 0 < fuel := by
          have : 0 < cs.length := List.length_pos.mpr hnil
          omega
        obtain ⟨k, rfl⟩ : ∃ k, fuel = k + 1 := ⟨fuel - 1, by omega⟩
        simp only [getline, hnil, htake, hlines, Bool.false_eq_true, if_false]
        rw [copyLoop_succ]
        simp [getline]
      · have htake := takeLine_line l hl rest []
        have hlines := getlinesAux_line l hl rest []
        simp only [List.reverse_nil, List.nil_append] at htake hlines
        have hlen : rest.length < fuel := by
          rw [hcs] at h
          simp at h
          omega
        rw [← hcs] at htake hlines
        simp only [getline, hnil, htake, hlines, Bool.false_eq_true, if_false]
        rw [ih rest _ hlen]
        rfl

/-- While the file takes every byte, a sequence of writes appends all of them. -/
theorem foldl_write_stored (ws : List (List Char)) :
    ∀ (o : OutStream), o.bad = false →
      (∀ n, o.room = some n → (ws.map List.length).sum ≤ n) →
      (ws.foldl OutStream.write o).stored = o.stored ++ ws.flatten := by
  induction ws with
  | nil => intro o _ _; simp
  | cons b ws ih =>
    intro o hbad hroom
    obtain ⟨stored, room, bad⟩ := o
    simp only at hbad hroom
    subst hbad
    cases room with
    | none =>
      have hw : OutStream.write ⟨stored, none, false⟩ b = ⟨stored ++ b, none, false⟩ := by
        simp [OutStream.write]
      rw [List.foldl_cons, hw, ih _ rfl (by intro n h; cases h)]
      simp
    | some n =>
      have hb := hroom n rfl
      simp only [List.map_cons, List.sum_cons] at hb
      have hw : OutStream.write ⟨stored, some n, false⟩ b
          = ⟨stored ++ b, some (n - b.length), false⟩ := by
        have : b.length ≤ n := by omega
        simp [OutStream.write, this]
      rw [List.foldl_cons, hw, ih _ rfl (by
        intro m hm
        simp only [Option.some.injEq] at hm
        omega)]
      simp

/-- When the input is the file the output stream writes to and that file takes every byte,
each read finds the line written last and the loop never ends. -/
theorem copyLoop_shared_unbounded (tag : String) (ht : '\n' ∉ tag.data) (fuel : Nat) :
    ∀ (pos : Nat) (o : OutStream) (l : List Char), o.bad = false → o.room = none →
      o.stored.drop pos = l ++ ['\n'] → '\n' ∉ l →
      copyLoop tag fuel (InStream.shared pos false) o = none := by
  induction fuel with
  | zero => intro pos o l _ _ _ _; rfl
  | succ fuel ih =>
    intro pos o l hbad hroom hdrop hl
    obtain ⟨stored, room, bad⟩ := o
    simp only at hbad hroom hdrop
    subst hbad hroom
    have htake : takeLine (stored.drop pos) [] = (l, some []) := by
      rw [hdrop]
      have := takeLine_line l hl [] []
      simpa using this
    have hne : stored.drop pos ≠ [] := by rw [hdrop]; simp
    have hlen : stored.length = pos + l.length + 1 := by
      have h1 : (stored.drop pos).length = l.length + 1 := by rw [hdrop]; simp
      rw [List.length_drop] at h1
      omega
    rw [copyLoop_succ]
    simp only [getline, hne, htake, Bool.false_eq_true, if_false]
    have hw : OutStream.write ⟨stored, none, false⟩ (tag ++ String.mk l ++ "\n").data
        = ⟨stored ++ (tag.data ++ l ++ ['\n']), none, false⟩ := by
      simp [OutStream.write, String.data_append]
    rw [hw]
    apply ih (pos + l.length + 1) _ (tag.data ++ l) rfl rfl
    · show (stored ++ (tag.data ++ l ++ ['\n'])).drop (pos + l.length + 1) = _
      rw [← hlen, List.drop_left]
    · intro hmem
      rcases List.mem_append.mp hmem with h | h
      · exact ht h
      · exact hl h

/-- A mode branch whose output file is its input file, on a destination without limit,
never returns. -/
theorem runMode_shared_unbounded (fuel : Nat) (label banner tag : String)
    (inputFilename content outputFilename : String)
    (w : World) (out : List String) (hb : '\n' ∉ banner.data) (ht : '\n' ∉ tag.data)
    (hsame : w.sameFile inputFilename outputFilename = true)
    (hcreate : w.canCreate outputFilename = true) (hroom : w.room outputFilename = none) :
    runMode fuel label banner tag inputFilename content outputFilename w out = none := by
  unfold runMode
  simp only [hcreate, if_true, hroom, hsame]
  have hw : OutStream.write ⟨[], none, false⟩ (banner ++ "\n").data
      = ⟨banner.data ++ ['\n'], none, false⟩ := by
    simp [OutStream.write, String.data_append]
  rw [hw, copyLoop_shared_unbounded tag ht fuel 0 _ banner.data rfl rfl (by simp) hb]

theorem runMode_cannot_create (fuel : Nat) (label banner tag inputFilename content : String)
    (outputFilename : String) (w : World) (out : List String)
    (h : w.canCreate outputFilename = false) :
    ∃ r, runMode fuel label banner tag inputFilename content outputFilename w out = some r ∧
      r.status = 1 ∧ r.written = none := by
  unfold runMode
  simp [h]

/-- A mode branch whose input is a file of its own returns 0 once the output is created, and
the created file holds what the writes stored. -/
theorem runMode_own (fuel : Nat) (label banner tag inputFilename content : String)
    (outputFilename : String) (w : World) (out : List String)
    (hne : w.sameFile inputFilename outputFilename = false)
    (hcreate : w.canCreate outputFilename = true)
    (hfuel : content.length < fuel) :
    ∃ r, runMode fuel label banner tag inputFilename content outputFilename w out = some r ∧
      r.status = 0 ∧
      r.written = some (outputFilename, String.mk
        (((banner ++ "\n").data ::
            (getlines content).map (fun line => (tag ++ line ++ "\n").data)).foldl
          OutStream.write ⟨[], w.room outputFilename, false⟩).stored) := by
  unfold runMode
  simp only [hcreate, if_true, hne, Bool.false_eq_true, if_false]
  rw [copyLoop_own tag fuel content.data _ hfuel]
  refine ⟨_, rfl, rfl, ?_⟩
  simp only [List.foldl_cons, List.foldl_map, getlines]

theorem taggedCopy_data (banner tag : String) (lines : List String) :
    (taggedCopy banner tag lines).data
      = ((banner ++ "\n").data :: lines.map (fun line => (tag ++ line ++ "\n").data)).flatten := by
  simp [taggedCopy, String.data_append, String.data_join, List.map_map, Function.comp_def]

/-- With room for the whole copy, the created file is the header line followed by the
tagged lines of the input. -/
theorem runMode_own_copy (fuel : Nat) (label banner tag inputFilename content : String)
    (outputFilename : String) (w : World) (out : List String)
    (hne : w.sameFile inputFilename outputFilename = false)
    (hcreate : w.canCreate outputFilename = true)
    (hfuel : content.length < fuel)
    (hroom : w.hasRoom outputFilename (taggedCopy banner tag (getlines content)).length = true) :
    ∃ r, runMode fuel label banner tag inputFilename content outputFilename w out = some r ∧
      r.status = 0 ∧
      r.written = some (outputFilename, taggedCopy banner tag (getlines content)) := by
  obtain ⟨r, hr, hs, hw⟩ := runMode_own fuel label banner tag inputFilename content
    outputFilename w out hne hcreate hfuel
  refine ⟨r, hr, hs, ?_⟩
  rw [hw, foldl_write_stored _ _ rfl, List.nil_append, ← taggedCopy_data]
  intro n hn
  have hn2 : w.room outputFilename = some n := hn
  unfold World.hasRoom at hroom
  rw [hn2] at hroom
  have hle := of_decide_eq_true hroom
  have hlen : (taggedCopy banner tag (getlines content)).length
      = (((banner ++ "\n").data ::
          (getlines content).map (fun line => (tag ++ line ++ "\n").data)).map
            List.length).sum := by
    show (taggedCopy banner tag (getlines content)).data.length = _
    rw [taggedCopy_data, List.length_flatten]
  rw [← hlen]
  exact hle

/-! ## Exit status of the dispatcher -/

theorem main_of_readable (fuel : Nat) (argv : List String) (w : World) (content : String)
    (hargc : 3 ≤ argv.length) (hin : w.readFile (inputFilenameOf argv) = some content) :
    main fuel argv w =
      if modeOf argv = "mtt" then
        runMode fuel "MTT" "# MTT Processing Output" "MTT: " (inputFilenameOf argv) content
          (outputFilenameOf argv) w
          ["Processing file: " ++ inputFilenameOf argv, "Mode: " ++ modeOf argv]
      else if modeOf argv = "realizer" then
        runMode fuel "Realizer" "# Realizer Processing Output" "REALIZER: "
          (inputFilenameOf argv) content (outputFilenameOf argv) w
          ["Processing file: " ++ inputFilenameOf argv, "Mode: " ++ modeOf argv]
      else if modeOf argv = "eos" then
        runMode fuel "EOS" "# EOS Processing Output" "EOS: " (inputFilenameOf argv) content
          (outputFilenameOf argv) w
          ["Processing file: " ++ inputFilenameOf argv, "Mode: " ++ modeOf argv]
      else
        some { status := 1,
               out := ["Processing file: " ++ inputFilenameOf argv, "Mode: " ++ modeOf argv],
               err := ["Error: Invalid mode \x27" ++ modeOf argv ++
                       "\x27. Valid modes are: mtt, realizer, eos"],
               written := none } := by
  unfold main
  rw [if_neg (by omega)]
  simp only [hin]

theorem runMode_status (fuel : Nat) (label banner tag inputFilename content : String)
    (outputFilename : String) (w : World) (out : List String)
    (hne : w.canCreate outputFilename = true →
      w.sameFile inputFilename outputFilename = false)
    (hfuel : content.length < fuel) :
    ∃ r, runMode fuel label banner tag inputFilename content outputFilename w out = some r ∧
      r.status = if w.canCreate outputFilename = true then 0 else 1 := by
  by_cases hc : w.canCreate outputFilename = true
  · obtain ⟨r, hr, hs, _⟩ := runMode_own fuel label banner tag inputFilename content
      outputFilename w out (hne hc) hc hfuel
    exact ⟨r, hr, by rw [if_pos hc]; exact hs⟩
  · obtain ⟨r, hr, hs, _⟩ := runMode_cannot_create fuel label banner tag inputFilename content
      outputFilename w out (by simpa using hc)
    exact ⟨r, hr, by rw [if_neg hc]; exact hs⟩

/-- C6 (as amended): unless all four conditions hold while the output path names the file
of the input path, the dispatcher returns, with exit status 0 exactly when at least a mode and an input
path are given (`argc >= 3`), the input file can be opened, the mode is one of "mtt",
"realizer", "eos", and the output file can be created, and with exit status 1 in every
other case. -/
theorem C6_exit_status (fuel : Nat) (argv : List String) (w : World)
    (hsafe : w.sameFile (inputFilenameOf argv) (outputFilenameOf argv) = true →
      ¬ (3 ≤ argv.length ∧ (w.readFile (inputFilenameOf argv)).isSome = true ∧
          (modeOf argv = "mtt" ∨ modeOf argv = "realizer" ∨ modeOf argv = "eos") ∧
          w.canCreate (outputFilenameOf argv) = true))
    (hfuel : ∀ content, w.readFile (inputFilenameOf argv) = some content →
      content.length < fuel) :
    ∃ r, main fuel argv w = some r ∧
      r.status =
        if 3 ≤ argv.length ∧ (w.readFile (inputFilenameOf argv)).isSome = true ∧
            (modeOf argv = "mtt" ∨ modeOf argv = "realizer" ∨ modeOf argv = "eos") ∧
            w.canCreate (outputFilenameOf argv) = true
        then 0 else 1 := by
  by_cases hargc : argv.length < 3
  · have h3 : ¬ 3 ≤ argv.length := by omega
    refine ⟨_, by unfold main; rw [if_pos hargc], ?_⟩
    simp [h3]
  · have h3 : 3 ≤ argv.length := by omega
    cases hin : w.readFile (inputFilenameOf argv) with
    | none =>
      have hm : ∃ r, main fuel argv w = some r ∧ r.status = 1 := by
        unfold main
        rw [if_neg hargc]
        simp only [hin]
        exact ⟨_, rfl, rfl⟩
      obtain ⟨r, hr, hs⟩ := hm
      exact ⟨r, hr, by rw [hs]; simp⟩
    | some content =>
      have hlen := hfuel content hin
      rw [main_of_readable fuel argv w content h3 hin]
      simp only [h3, hin, Option.isSome_some, true_and] at hsafe ⊢
      by_cases h1 : modeOf argv = "mtt"
      · rw [if_pos h1]
        obtain ⟨r, hr, hs⟩ := runMode_status fuel "MTT" "# MTT Processing Output" "MTT: "
          (inputFilenameOf argv) content (outputFilenameOf argv) w
          ["Processing file: " ++ inputFilenameOf argv, "Mode: " ++ modeOf argv]
          (fun hc => by
            cases hs : w.sameFile (inputFilenameOf argv) (outputFilenameOf argv) with
            | false => rfl
            | true => exact absurd ⟨Or.inl h1, hc⟩ (hsafe hs)) hlen
        exact ⟨r, hr, by rw [hs]; simp [h1]⟩
      · by_cases h2 : modeOf argv = "realizer"
        · rw [if_neg h1, if_pos h2]
          obtain ⟨r, hr, hs⟩ := runMode_status fuel "Realizer" "# Realizer Processing Output"
            "REALIZER: " (inputFilenameOf argv) content (outputFilenameOf argv) w
            ["Processing file: " ++ inputFilenameOf argv, "Mode: " ++ modeOf argv]
            (fun hc => by
              cases hs : w.sameFile (inputFilenameOf argv) (outputFilenameOf argv) with
              | false => rfl
              | true => exact absurd ⟨Or.inr (Or.inl h2), hc⟩ (hsafe hs)) hlen
          exact ⟨r, hr, by rw [hs]; simp [h2]⟩
        · by_cases h3m : modeOf argv = "eos"
          · rw [if_neg h1, if_neg h2, if_pos h3m]
            obtain ⟨r, hr, hs⟩ := runMode_status fuel "EOS" "# EOS Processing Output" "EOS: "
              (inputFilenameOf argv) content (outputFilenameOf argv) w
              ["Processing file: " ++ inputFilenameOf argv, "Mode: " ++ modeOf argv]
              (fun hc => by
                cases hs : w.sameFile (inputFilenameOf argv) (outputFilenameOf argv) with
                | false => rfl
                | true => exact absurd ⟨Or.inr (Or.inr h3m), hc⟩ (hsafe hs)) hlen
            exact ⟨r, hr, by rw [hs]; simp [h3m]⟩
          · rw [if_neg h1, if_neg h2, if_neg h3m]
            exact ⟨_, rfl, by simp [h1, h2, h3m]⟩

/-- An eos run over a readable input, written to the default "output.txt", exercising C6. -/
theorem C6_exit_status_witness :
    ∃ r, main 8 ["slm", "eos", "in.txt"]
        ⟨fun p => if p = "in.txt" then some "G1 X0\n" else none, fun _ => true,
          fun _ => none, fun a b => a == b⟩ = some r ∧
      r.status =
        if 3 ≤ ["slm", "eos", "in.txt"].length ∧
            ((World.mk (fun p => if p = "in.txt" then some "G1 X0\n" else none)
                (fun _ => true) (fun _ => none) (fun a b => a == b)).readFile
              (inputFilenameOf ["slm", "eos", "in.txt"])).isSome = true ∧
            (modeOf ["slm", "eos", "in.txt"] = "mtt" ∨
              modeOf ["slm", "eos", "in.txt"] = "realizer" ∨
              modeOf ["slm", "eos", "in.txt"] = "eos") ∧
            (World.mk (fun p => if p = "in.txt" then some "G1 X0\n" else none)
                (fun _ => true) (fun _ => none) (fun a b => a == b)).canCreate
              (outputFilenameOf ["slm", "eos", "in.txt"]) = true
        then 0 else 1 :=
  C6_exit_status 8 ["slm", "eos", "in.txt"]
    ⟨fun p => if p = "in.txt" then some "G1 X0\n" else none, fun _ => true, fun _ => none,
      fun a b => a == b⟩
    (fun h => absurd h (by decide))
    (fun content h => by
      have h2 : some "G1 X0\n" = some content := h
      cases h2
      decide)

/-- C6 as stated fails: with a mode, a readable input, and a creatable output given as the
same path as the input, all four conditions hold, yet the run never returns: the output
stream truncates the file, and every read of the copy loop finds the line written last. -/
theorem C6_aliased_run_never_returns :
    (3 ≤ ["slm", "mtt", "f.txt", "f.txt"].length ∧
      ((World.mk (fun p => if p = "f.txt" then some "G1 X0\n" else none)
          (fun _ => true) (fun _ => none) (fun a b => a == b)).readFile
        (inputFilenameOf ["slm", "mtt", "f.txt", "f.txt"])).isSome = true ∧
      (modeOf ["slm", "mtt", "f.txt", "f.txt"] = "mtt" ∨
        modeOf ["slm", "mtt", "f.txt", "f.txt"] = "realizer" ∨
        modeOf ["slm", "mtt", "f.txt", "f.txt"] = "eos") ∧
      (World.mk (fun p => if p = "f.txt" then some "G1 X0\n" else none)
          (fun _ => true) (fun _ => none) (fun a b => a == b)).canCreate
        (outputFilenameOf ["slm", "mtt", "f.txt", "f.txt"]) = true) ∧
    ¬ ∃ fuel r, main fuel ["slm", "mtt", "f.txt", "f.txt"]
        ⟨fun p => if p = "f.txt" then some "G1 X0\n" else none, fun _ => true,
          fun _ => none, fun a b => a == b⟩ = some r := by
  refine ⟨⟨by decide, by decide, Or.inl (by decide), rfl⟩, ?_⟩
  rintro ⟨fuel, r, h⟩
  have hrun : main fuel ["slm", "mtt", "f.txt", "f.txt"]
      ⟨fun p => if p = "f.txt" then some "G1 X0\n" else none, fun _ => true,
        fun _ => none, fun a b => a == b⟩ = none := by
    rw [main_of_readable fuel _ _ "G1 X0\n" (by decide) (by decide), if_pos (by decide)]
    exact runMode_shared_unbounded fuel "MTT" "# MTT Processing Output" "MTT: " "f.txt"
      "G1 X0\n" "f.txt" _ _ (by decide) (by decide) (by decide) rfl rfl
  rw [hrun] at h
  cases h

/-! ## The lines the dispatcher writes -/

/-- What a created output file holds, read as lines. -/
theorem output_lines (banner tag content : String) (lines : List String)
    (hb : '\n' ∉ banner.data) (ht : '\n' ∉ tag.data) (hlines : getlines content = lines) :
    getlines (taggedCopy banner tag (getlines content))
      = banner :: lines.map (fun line => tag ++ line) := by
  unfold taggedCopy
  rw [getlines_output banner tag hb ht (getlines content) (getlines_no_newline content), hlines]

/-- C12 (as amended): for every mode in {mtt, realizer, eos} and every input file that reads
as the lines L1..Ln, a run whose output file is created, is not the input file and has room
for every byte written is successful (it returns 0) and writes exactly n + 1 lines: the
header line of the mode, then each Li in input order preceded by the tag of the mode;
removing the tag from output line i + 1 gives back Li. -/
theorem C12_output_lines (fuel : Nat) (argv : List String) (w : World) (content : String)
    (lines : List String) (mode banner tag : String)
    (hm : (mode, banner, tag) ∈
      [("mtt", "# MTT Processing Output", "MTT: "),
       ("realizer", "# Realizer Processing Output", "REALIZER: "),
       ("eos", "# EOS Processing Output", "EOS: ")])
    (hargc : 3 ≤ argv.length) (hmode : modeOf argv = mode)
    (hin : w.readFile (inputFilenameOf argv) = some content)
    (hlines : getlines content = lines)
    (hout : w.canCreate (outputFilenameOf argv) = true)
    (hne : w.sameFile (inputFilenameOf argv) (outputFilenameOf argv) = false)
    (hroom : w.hasRoom (outputFilenameOf argv) (taggedCopy banner tag lines).length = true)
    (hfuel : content.length < fuel) :
    ∃ r output, main fuel argv w = some r ∧ r.status = 0 ∧
      r.written = some (outputFilenameOf argv, output) ∧
      getlines output = banner :: lines.map (fun line => tag ++ line) ∧
      (getlines output).length = lines.length + 1 ∧
      ∀ i, i < lines.length →
        stripTag tag ((getlines output).getD (i + 1) "") = lines.getD i "" := by
  have key : ∃ r, main fuel argv w = some r ∧ r.status = 0 ∧
      r.written = some (outputFilenameOf argv, taggedCopy banner tag (getlines content)) ∧
      getlines (taggedCopy banner tag (getlines content))
        = banner :: lines.map (fun line => tag ++ line) := by
    rw [main_of_readable fuel argv w content hargc hin]
    rw [← hlines] at hroom
    simp only [List.mem_cons, Prod.mk.injEq, List.mem_singleton, List.not_mem_nil,
      or_false] at hm
    rcases hm with ⟨h1, h2, h3⟩ | ⟨h1, h2, h3⟩ | ⟨h1, h2, h3⟩
    · subst h1 h2 h3
      rw [if_pos hmode]
      obtain ⟨r, hr, hs, hw⟩ := runMode_own_copy fuel "MTT" _ _ _ content _ w _ hne hout
        hfuel hroom
      exact ⟨r, hr, hs, hw, output_lines _ _ _ _ (by decide) (by decide) hlines⟩
    · subst h1 h2 h3
      rw [if_neg (by rw [hmode]; decide), if_pos hmode]
      obtain ⟨r, hr, hs, hw⟩ := runMode_own_copy fuel "Realizer" _ _ _ content _ w _ hne hout
        hfuel hroom
      exact ⟨r, hr, hs, hw, output_lines _ _ _ _ (by decide) (by decide) hlines⟩
    · subst h1 h2 h3
      rw [if_neg (by rw [hmode]; decide), if_neg (by rw [hmode]; decide), if_pos hmode]
      obtain ⟨r, hr, hs, hw⟩ := runMode_own_copy fuel "EOS" _ _ _ content _ w _ hne hout
        hfuel hroom
      exact ⟨r, hr, hs, hw, output_lines _ _ _ _ (by decide) (by decide) hlines⟩
  obtain ⟨r, hr, h0, hw, hl⟩ := key
  refine ⟨r, _, hr, h0, hw, hl, by simp [hl], ?_⟩
  intro i hi
  rw [hl, List.getD_cons_succ, List.getD_eq_getElem _ _ (by simpa using hi),
    List.getD_eq_getElem _ _ hi, List.getElem_map]
  exact stripTag_tagged tag _

/-- A realizer run over a two-line input whose last line has no newline, into a file with
room for exactly the 61 bytes of the copy, exercising C12. -/
theorem C12_output_lines_witness :
    ∃ r output,
      main 12 ["slm", "realizer", "in.txt", "out.txt"]
        ⟨fun p => if p = "in.txt" then some "G1 X0\nG1 X5" else none, fun _ => true,
          fun _ => some 61, fun a b => a == b⟩ = some r ∧
      r.status = 0 ∧
      r.written = some (outputFilenameOf ["slm", "realizer", "in.txt", "out.txt"], output) ∧
      getlines output = "# Realizer Processing Output" ::
        ["G1 X0", "G1 X5"].map (fun line => "REALIZER: " ++ line) ∧
      (getlines output).length = ["G1 X0", "G1 X5"].length + 1 ∧
      ∀ i, i < ["G1 X0", "G1 X5"].length →
        stripTag "REALIZER: " ((getlines output).getD (i + 1) "")
          = ["G1 X0", "G1 X5"].getD i "" :=
  C12_output_lines 12 ["slm", "realizer", "in.txt", "out.txt"]
    ⟨fun p => if p = "in.txt" then some "G1 X0\nG1 X5" else none, fun _ => true,
      fun _ => some 61, fun a b => a == b⟩
    "G1 X0\nG1 X5" ["G1 X0", "G1 X5"]
    "realizer" "# Realizer Processing Output" "REALIZER: "
    (by decide) (by decide) (by decide) (by decide) (by decide) rfl (by decide) (by decide)
    (by decide)

/-- C12 as stated fails.  A run whose destination opens and takes nothing returns 0 over a
two-line input and leaves an output of no line at all; and a run whose output path is its
input path, on a file that takes 60 bytes, returns 0 with an output of three lines that
copy the header line instead of the one input line. -/
theorem C12_run_returns_zero_without_copy :
    getlines "G1 X0\nG1 X5" = ["G1 X0", "G1 X5"] ∧
    (main 12 ["slm", "realizer", "in.txt", "out.txt"]
        ⟨fun p => if p = "in.txt" then some "G1 X0\nG1 X5" else none, fun _ => true,
          fun _ => some 0, fun a b => a == b⟩).map (fun r => (r.status, r.written))
      = some (0, some ("out.txt", "")) ∧
    getlines "" = [] ∧
    getlines "G1 X0\n" = ["G1 X0"] ∧
    (main 12 ["slm", "mtt", "f.txt", "f.txt"]
        ⟨fun p => if p = "f.txt" then some "G1 X0\n" else none, fun _ => true,
          fun _ => some 60, fun a b => a == b⟩).map (fun r => (r.status, r.written))
      = some (0, some ("f.txt",
          "# MTT Processing Output\nMTT: # MTT Processing Output\nMTT: MT")) ∧
    getlines "# MTT Processing Output\nMTT: # MTT Processing Output\nMTT: MT"
      = ["# MTT Processing Output", "MTT: # MTT Processing Output", "MTT: MT"] :=
  ⟨by decide, by decide, by decide, by decide, by decide, by decide⟩

/-! ## Failed runs leave the output alone -/

/-- C13: when the dispatcher fails because fewer than two arguments follow the program name,
because the input file cannot be opened, or because the mode is none of mtt, realizer, eos,
it returns 1 without creating or writing an output file: every path of the file system holds
after the run what it held before. -/
theorem C13_failure_leaves_output_untouched (fuel : Nat) (argv : List String) (w : World)
    (h : argv.length < 3 ∨ w.readFile (inputFilenameOf argv) = none ∨
      (modeOf argv ≠ "mtt" ∧ modeOf argv ≠ "realizer" ∧ modeOf argv ≠ "eos")) :
    ∃ r, main fuel argv w = some r ∧ r.status = 1 ∧ r.written = none ∧
      ∀ path, filesAfter w r path = w.readFile path := by
  have hw : ∃ r, main fuel argv w = some r ∧ r.status = 1 ∧ r.written = none := by
    by_cases hargc : argv.length < 3
    · unfold main
      rw [if_pos hargc]
      exact ⟨_, rfl, rfl, rfl⟩
    · cases hin : w.readFile (inputFilenameOf argv) with
      | none =>
        unfold main
        rw [if_neg hargc]
        simp only [hin]
        exact ⟨_, rfl, rfl, rfl⟩
      | some content =>
        rcases h with h | h | ⟨h1, h2, h3⟩
        · exact absurd h hargc
        · rw [hin] at h
          cases h
        · rw [main_of_readable fuel argv w content (by omega) hin, if_neg h1, if_neg h2,
            if_neg h3]
          exact ⟨_, rfl, rfl, rfl⟩
  obtain ⟨r, hr, hs, hwr⟩ := hw
  refine ⟨r, hr, hs, hwr, fun path => ?_⟩
  unfold filesAfter
  rw [hwr]

/-- An unknown mode over a readable input, exercising C13. -/
theorem C13_failure_leaves_output_untouched_witness :
    ∃ r, main 0 ["slm", "cli", "in.txt", "out.txt"]
        ⟨fun p => if p = "in.txt" then some "G1 X0\n" else none, fun _ => true,
          fun _ => none, fun a b => a == b⟩ = some r ∧
      r.status = 1 ∧ r.written = none ∧
      ∀ path,
        filesAfter ⟨fun p => if p = "in.txt" then some "G1 X0\n" else none, fun _ => true,
            fun _ => none, fun a b => a == b⟩ r path
          = (World.mk (fun p => if p = "in.txt" then some "G1 X0\n" else none)
              (fun _ => true) (fun _ => none) (fun a b => a == b)).readFile path :=
  C13_failure_leaves_output_untouched 0 ["slm", "cli", "in.txt", "out.txt"]
    ⟨fun p => if p = "in.txt" then some "G1 X0\n" else none, fun _ => true, fun _ => none,
      fun a b => a == b⟩
    (Or.inr (Or.inr ⟨by decide, by decide, by decide⟩))

end SLM
